import Mathlib

/-!
Verification development for the luasyntax repository (Go): a lossless
Lua 5.1 scanner/parser/printer with scope analysis and a minifier.

Shallow embedding conventions:
  - Go `int` values are embedded as `Nat` where the source keeps them
    non-negative (offsets, lengths, token-type values); `Int` is used where
    a value can be negative (the identifier-index arithmetic, rune values).
  - Byte slices (`[]byte`) are embedded as `List Char`, one `Char` per byte
    (the scanner reads bytes individually; all byte values fit in `Char`).
  - Go structures become Lean structures; interface types become inductive
    sums; `nil`-able pointers become `Option`.
  - The source's `Prefix` type is embedded under the name `Pre` (field
    `pre`), since some tool-reserved identifiers cannot be used here.
-/

/-! ### token/token.go: token type constants.
The Go source declares `Type int` constants with `iota`; the embedding
assigns the same numeric values, including the unexported range markers. -/

abbrev TokType := Nat

def INVALID : TokType := 0
def valid_start : TokType := 1
def EOF : TokType := 2
def pre_start : TokType := 3
def SPACE : TokType := 4
def comm_start : TokType := 5
def COMMENT : TokType := 6
def LONGCOMMENT : TokType := 7
def comm_end : TokType := 8
def pre_end : TokType := 9
def NAME : TokType := 10
def num_start : TokType := 11
def NUMBERFLOAT : TokType := 12
def NUMBERHEX : TokType := 13
def num_end : TokType := 14
def str_start : TokType := 15
def STRING : TokType := 16
def LONGSTRING : TokType := 17
def str_end : TokType := 18
def op_start : TokType := 19
def SEMICOLON : TokType := 20
def ASSIGN : TokType := 21
def COMMA : TokType := 22
def DOT : TokType := 23
def COLON : TokType := 24
def LBRACK : TokType := 25
def RBRACK : TokType := 26
def VARARG : TokType := 27
def LPAREN : TokType := 28
def RPAREN : TokType := 29
def LBRACE : TokType := 30
def RBRACE : TokType := 31
def binop_start : TokType := 32
def PLUS : TokType := 33
def ASTERISK : TokType := 34
def SLASH : TokType := 35
def PERCENT : TokType := 36
def CARET : TokType := 37
def CONCAT : TokType := 38
def LT_ : TokType := 39
def LEQ : TokType := 40
def GT_ : TokType := 41
def GEQ : TokType := 42
def EQ_ : TokType := 43
def NEQ : TokType := 44
def unop_start : TokType := 45
def MINUS : TokType := 46
def binop_end : TokType := 47
def HASH : TokType := 48
def op_end : TokType := 49
def key_start : TokType := 50
def NOT : TokType := 51
def unop_end : TokType := 52
def DO : TokType := 53
def END : TokType := 54
def WHILE : TokType := 55
def REPEAT : TokType := 56
def UNTIL : TokType := 57
def IF : TokType := 58
def THEN : TokType := 59
def ELSEIF : TokType := 60
def ELSE : TokType := 61
def FOR : TokType := 62
def IN : TokType := 63
def LOCAL : TokType := 64
def FUNCTION : TokType := 65
def RETURN : TokType := 66
def BREAK : TokType := 67
def NIL : TokType := 68
def bool_start : TokType := 69
def FALSE : TokType := 70
def TRUE : TokType := 71
def bool_end : TokType := 72
def binkey_start : TokType := 73
def AND : TokType := 74
def OR : TokType := 75
def binkey_end : TokType := 76
def key_end : TokType := 77
def valid_end : TokType := 78

/-! ### token/token.go: class predicates (range checks, as in the source). -/

def TokType.IsValid (t : TokType) : Bool := valid_start < t && t < valid_end

def TokType.IsPre (t : TokType) : Bool := pre_start < t && t < pre_end

def TokType.IsComment (t : TokType) : Bool := comm_start < t && t < comm_end

def TokType.IsNumber (t : TokType) : Bool := num_start < t && t < num_end

def TokType.IsString (t : TokType) : Bool := str_start < t && t < str_end

def TokType.IsOperator (t : TokType) : Bool := key_start < t && t < key_end

def TokType.IsUnary (t : TokType) : Bool := unop_start < t && t < unop_end

def TokType.IsKeyword (t : TokType) : Bool := key_start < t && t < key_end

def TokType.IsBool (t : TokType) : Bool := bool_start < t && t < bool_end

def TokType.IsBinary (t : TokType) : Bool :=
  (binop_start < t && t < binop_end) || (binkey_start < t && t < binkey_end)

/-- token/token.go: `Precedence` returns left/right binary priorities. -/
def TokType.Precedence (t : TokType) : Nat × Nat :=
  if t = CARET then (10, 9)
  else if t = ASTERISK || t = SLASH || t = PERCENT then (7, 7)
  else if t = PLUS || t = MINUS then (6, 6)
  else if t = CONCAT then (5, 4)
  else if t = LT_ || t = GT_ || t = LEQ || t = GEQ || t = NEQ || t = EQ_ then (3, 3)
  else if t = AND then (2, 2)
  else if t = OR then (1, 1)
  else (0, 0)

def UnaryPrecedence : Nat := 8

/-- token/token.go: the `tokens` table (the range markers, which the
source maps to the empty string, are the fall-through `[]`). -/
def tokenString (t : TokType) : List Char :=
  if t = INVALID then "<invalid>".toList
  else if t = EOF then "<eof>".toList
  else if t = SPACE then "<space>".toList
  else if t = COMMENT || t = LONGCOMMENT then "<comment>".toList
  else if t = NAME then "<name>".toList
  else if t = NUMBERFLOAT || t = NUMBERHEX then "<number>".toList
  else if t = STRING || t = LONGSTRING then "<string>".toList
  else if t = PLUS then ['+'] else if t = MINUS then ['-']
  else if t = ASTERISK then ['*'] else if t = SLASH then ['/']
  else if t = CARET then ['^'] else if t = PERCENT then ['%']
  else if t = CONCAT then ['.', '.'] else if t = LT_ then ['<']
  else if t = LEQ then ['<', '='] else if t = GT_ then ['>']
  else if t = GEQ then ['>', '='] else if t = EQ_ then ['=', '=']
  else if t = NEQ then ['~', '='] else if t = SEMICOLON then [';']
  else if t = ASSIGN then ['='] else if t = COMMA then [',']
  else if t = DOT then ['.'] else if t = COLON then [':']
  else if t = LBRACK then ['['] else if t = RBRACK then [']']
  else if t = VARARG then ['.', '.', '.'] else if t = LPAREN then ['(']
  else if t = RPAREN then [')'] else if t = LBRACE then ['{']
  else if t = RBRACE then ['}'] else if t = HASH then ['#']
  else if t = DO then ['d', 'o'] else if t = END then ['e', 'n', 'd']
  else if t = WHILE then ['w', 'h', 'i', 'l', 'e']
  else if t = REPEAT then ['r', 'e', 'p', 'e', 'a', 't']
  else if t = UNTIL then ['u', 'n', 't', 'i', 'l']
  else if t = IF then ['i', 'f']
  else if t = THEN then ['t', 'h', 'e', 'n']
  else if t = ELSEIF then ['e', 'l', 's', 'e', 'i', 'f']
  else if t = ELSE then ['e', 'l', 's', 'e']
  else if t = FOR then ['f', 'o', 'r'] else if t = IN then ['i', 'n']
  else if t = LOCAL then ['l', 'o', 'c', 'a', 'l']
  else if t = FUNCTION then ['f', 'u', 'n', 'c', 't', 'i', 'o', 'n']
  else if t = RETURN then ['r', 'e', 't', 'u', 'r', 'n']
  else if t = BREAK then ['b', 'r', 'e', 'a', 'k']
  else if t = NIL then ['n', 'i', 'l']
  else if t = FALSE then ['f', 'a', 'l', 's', 'e']
  else if t = TRUE then ['t', 'r', 'u', 'e']
  else if t = AND then ['a', 'n', 'd'] else if t = OR then ['o', 'r']
  else if t = NOT then ['n', 'o', 't']
  else []

/-- token/token.go: `Lookup` maps a name to its keyword type, or NAME. The
source builds the keyword map by iterating types between `key_start` and
`key_end`; the embedding searches the same range. -/
def Lookup (name : List Char) : TokType :=
  match (List.range (key_end - key_start - 1)).find?
      (fun i => tokenString (key_start + 1 + i) = name && tokenString (key_start + 1 + i) ≠ []) with
  | some i => key_start + 1 + i
  | none => NAME

/-! ### ast/ast.go: tokens and prefixes. -/

/-- ast/ast.go: `Prefix` — a space/comment token preceding a `Token`
(embedded under the name `Pre`). -/
structure Pre where
  type : TokType
  bytes : List Char
deriving DecidableEq, Repr

/-- ast/ast.go: `Token` — token type, preceding prefixes, offset, bytes. -/
structure Tok where
  type : TokType
  pre : List Pre
  offset : Nat
  bytes : List Char
deriving DecidableEq, Repr

/-- The zero value of `ast.Token` (Go's implicit zero struct). -/
def Tok.zero : Tok := ⟨INVALID, [], 0, []⟩

/-- ast/ast.go: `Name` — a NAME token with an optional evaluated value
(the `Value` field is only set in EvalConst mode and never printed; the
embedding keeps the token only). -/
structure NameN where
  token : Tok
deriving DecidableEq, Repr

/-- ast/ast.go: `NameList` — parallel `Items` and `Seps`. -/
structure NameListN where
  items : List NameN
  seps : List Tok
deriving DecidableEq, Repr

/-! ### ast/valid.go: token-type helpers and `NameList.IsValid`. -/

/-- ast/valid.go: `ist` — the token has exactly the given type. -/
def ist (tok : Tok) (typ : TokType) : Bool := tok.type = typ

/-- ast/valid.go: `NameList.IsValid`. The source checks the length
relation, then iterates `l.Seps` twice: the first loop requires each
element of `Seps` to be a NAME, the second requires each to be a COMMA
(the first loop ranges over `l.Seps`, not `l.Items`, exactly as written
at src/go/ast/valid.go lines 57-72). -/
def NameListN.IsValid (l : NameListN) : Bool :=
  if l.items.length = 0 || l.seps.length ≠ l.items.length - 1 then
    false
  else if l.seps.all (fun name => ist name NAME) = false then
    false
  else if l.seps.all (fun sep => ist sep COMMA) = false then
    false
  else
    true

/-! ### token `AdjoinSeparator` (src/unnamed/part_001) and the adjoin
fixer (src/go/ast/adjoin.go). Separator results are embedded as `Int`:
a non-negative value is the separator character code, -1 means the tokens
may be adjacent, -2 means the result depends on token content. -/

/-- Modelled from the spec: the marker `ekey_end` is referenced by
`Type.AdjoinSeparator` (src/unnamed/part_001 line 109) but its declaration
is not part of the snapshot. The spec states that for the purpose of this
table "keyword" includes the boolean literals, the operator-keywords
(`and`, `or`, `not`) and all control keywords, i.e. every keyword type
lies below the marker; the smallest such position is `key_end`. -/
def ekey_end : TokType := key_end

/-- part_001: `Type.AdjoinSeparator`. -/
def TokType.AdjoinSeparator (left right : TokType) : Int :=
  let space : Int := 32
  let newline : Int := 10
  let okay : Int := -1
  let cond : Int := -2
  if left = EOF then okay
  else if !left.IsValid || !right.IsValid then okay
  else if left = COMMENT then
    (if comm_start < right then newline else okay)
  else if left = NAME then
    (if right = NAME || right.IsNumber || key_start < right then space else okay)
  else if left.IsNumber then
    (if right = NAME || right.IsNumber || right = DOT || right = VARARG
        || key_start < right then space else okay)
  else if left = ASSIGN then
    (if right = ASSIGN || right = EQ_ then space else okay)
  else if left = DOT then
    (if right.IsNumber || right = DOT || right = VARARG || right = CONCAT
     then space else okay)
  else if left = LBRACK then
    (if right = LONGSTRING || right = LBRACK then space else okay)
  else if left = CONCAT then
    (if right = NUMBERFLOAT then cond
     else if right = DOT then space else okay)
  else if left = LT_ || left = GT_ then
    (if right = ASSIGN || right = EQ_ then space else okay)
  else if left = EQ_ || left = NEQ then
    (if right = ASSIGN then space else okay)
  else if left = MINUS then
    (if right.IsComment || right = MINUS then space else okay)
  else if key_start < left then
    (if right = NAME || key_start < right then space
     else if right = NUMBERFLOAT then
       (if left < ekey_end then cond else okay)
     else okay)
  else okay

/-- ast/adjoin.go: `adjoinFixer.getSep` — resolves the content-dependent
(-2) cases of `AdjoinSeparator` using the right token's bytes. -/
def getSep (lt rt : TokType) (rb : List Char) : Int :=
  let c := lt.AdjoinSeparator rt
  if c = -2 then
    if lt = CONCAT && rt = NUMBERFLOAT then
      (if rb.length = 0 || rb.headI ≠ '.' then (-1 : Int) else 32)
    else if lt.IsKeyword && rt = NUMBERFLOAT then
      (if decide (0 < rb.length) && rb.headI = '.' then (-1 : Int) else 32)
    else (32 : Int)
  else c

/-! ### format/minify.go: identifier enumeration (`GenerateIdent`,
`IdentIndex`). Go `int` is 64-bit here and the arithmetic can go negative
in principle, so these are embedded over `Int` with truncating division
and remainder (`Int.tdiv` / `Int.tmod`), which is Go's `/` and `%`. -/

/-- format/minify.go: the constant `chars`
(`abcdefghijklmnopqrstuvwxyzABCDEFGHIJKLMNOPQRSTUVWXYZ_0123456789`). -/
def chars : List Char :=
  ['a', 'b', 'c', 'd', 'e', 'f', 'g', 'h', 'i', 'j', 'k', 'l', 'm',
   'n', 'o', 'p', 'q', 'r', 's', 't', 'u', 'v', 'w', 'x', 'y', 'z',
   'A', 'B', 'C', 'D', 'E', 'F', 'G', 'H', 'I', 'J', 'K', 'L', 'M',
   'N', 'O', 'P', 'Q', 'R', 'S', 'T', 'U', 'V', 'W', 'X', 'Y', 'Z',
   '_', '0', '1', '2', '3', '4', '5', '6', '7', '8', '9']

/-- format/minify.go: `second = len(chars)` (= 63). -/
def second : Nat := chars.length

/-- format/minify.go: `first = second - 10` (= 53). -/
def first : Nat := second - 10

/-- format/minify.go: the `charIndex` reverse-lookup table: a valid
character maps to its position in `chars`, everything else maps to -1. -/
def charIndex (c : Char) : Int :=
  match chars.indexOf? c with
  | some i => (i : Int)
  | none => -1

/-- `chars[d]` for an in-range index (out-of-range reads, which panic in
Go, return a placeholder). -/
def charsAt (d : Int) : Char := chars.getD d.toNat '?'

/-- format/minify.go: `maxIdentIndex = 1<<31 - 1`. -/
def maxIdentIndex : Int := 2 ^ 31 - 1

/-- format/minify.go: `maxIdentLength = 6`. -/
def maxIdentLength : Nat := 6

/-- The length-computation loop of `GenerateIdent`:
`for i, t, n := 0, 0, index; i <= n; length++ { index -= t; t = first;
for j := 0; j < length; j++ { t *= second }; i += t }`.
Arguments mirror the loop variables; `n` is fixed. -/
def genLoop (n : Int) (i t index : Int) (length : Nat) : Int × Nat :=
  if _h : i ≤ n then
    let index2 := index - t
    let t2 : Int := (first : Int) * (second : Int) ^ length
    genLoop n (i + t2) t2 index2 (length + 1)
  else
    (index, length)
termination_by (n + 1 - i).toNat
decreasing_by
  have hfs : (1 : Int) ≤ (first : Int) * (second : Int) ^ length := by
    have h1 : (1 : Int) ≤ (first : Int) := by norm_num [first, second, chars]
    have h2 : (1 : Int) ≤ (second : Int) ^ length := one_le_pow₀ (by norm_num [second, chars])
    nlinarith
  omega

/-- The digit-emission loop of `GenerateIdent`: emits `k` further
characters (`buf[1..]`), each time taking `n % second` and dividing. -/
def genRest (n : Int) (k : Nat) : List Char :=
  match k with
  | 0 => []
  | k + 1 =>
    let d := n.tmod (second : Int)
    charsAt d :: genRest ((n - d).tdiv (second : Int)) k

/-- format/minify.go: `GenerateIdent` — generates an identifier string
from an index in `[0, maxIdentIndex]`; any other value gives `""`. -/
def GenerateIdent (index : Int) : List Char :=
  if index < 0 || index > maxIdentIndex then []
  else
    let r := genLoop index 0 0 index 0
    let index2 := r.1
    let length := r.2
    let d := index2.tmod (first : Int)
    let n := (index2 - d).tdiv (first : Int)
    charsAt d :: genRest n (length - 1)

/-- The accumulation loop of `IdentIndex` (`for i := 2; i < len(s); i++`):
returns the final `x` and `n`. The loop walks the suffix `s.drop i` (so
`c` is `s[i]`); `powInt` in the source is embedded as `^`. -/
def identLoop (rest : List Char) (i : Nat) (x n : Int) : Int × Int :=
  match rest with
  | [] => (x, n)
  | c :: rest2 =>
    let p : Int := (first : Int) * (second : Int) ^ (i - 1)
    let x2 : Int := ((second : Int) * p).tdiv ((second : Int) - 1)
    let n2 : Int := n + p * charIndex c
    identLoop rest2 (i + 1) x2 n2

/-- format/minify.go: `IdentIndex` — the index of a generated identifier,
or -1 for an invalid identifier. -/
def IdentIndex (s : List Char) : Int :=
  if s.length = 0 || s.length > maxIdentLength then -1
  else
    let n0 := charIndex s.headI
    if n0 < 0 || n0 ≥ (first : Int) then -1
    else if s.length = 1 then n0
    else
      let p1 : Int := (first : Int) * (second : Int) ^ 0
      let x1 : Int := ((first : Int) * p1).tdiv ((first : Int) - 1) - 1
      let n1 : Int := n0 + p1 * charIndex (s.getD 1 '?')
      let r := identLoop (s.drop 2) 2 x1 n1
      let n2 := r.2 + r.1
      if n2 < 0 || n2 > maxIdentIndex then -1 else n2

/-! Spec-side formulation of the identifier map (used to compare the code
against the claim's formula). `identPrefixSum L` is the number of
identifiers of length < L+1... precisely `first·second^0 + … +
first·second^(L-1)`. -/

/-- `first·second^0 + … + first·second^(L-1)` (0 for `L = 0`). -/
def identPrefixSum : Nat → Nat
  | 0 => 0
  | L + 1 => identPrefixSum L + first * second ^ L

/-- The smallest `L ≥ 1` such that `identPrefixSum L > n`. -/
def identLenSpec (n : Nat) : Nat :=
  Nat.find (p := fun L => identPrefixSum (L + 1) > n)
    ⟨n, by
      have h : n + 1 ≤ identPrefixSum (n + 1) := by
        induction n with
        | zero => decide
        | succ k ih =>
          have hx : 1 ≤ first * second ^ (k + 1) :=
            Nat.one_le_iff_ne_zero.mpr
              (Nat.mul_ne_zero (by decide) (pow_ne_zero _ (by decide)))
          have heq : identPrefixSum (k + 1 + 1) =
              identPrefixSum (k + 1) + first * second ^ (k + 1) := rfl
          omega
      omega⟩ + 1

/-- The claim's formula for the generated identifier, parameterised by the
alphabet split (`f` first-character choices, `s` total characters): length
`L` is the smallest with `f·s^0 + … + f·s^(L-1) > n`; with
`r = n - (prefix sum below L)`, the first character is `chars[r % f]` and
the `k`-th following character is `chars[r / f / s^(k-1) % s]`.
Instantiated at `f = first, s = second` this is the amended claim; the
original claim uses 52 and 62. -/
def genIdentFormula (f s : Nat) (pfx : Nat → Nat) (len : Nat) (n : Nat) : List Char :=
  let r := n - pfx (len - 1)
  chars.getD (r % f) '?' ::
    (List.range (len - 1)).map (fun k => chars.getD (r / f / s ^ k % s) '?')

/-- The claim's identifier map with the spec's constants 52 and 62
(the 52-based prefix sums and length). -/
def identPrefixSum52 : Nat → Nat
  | 0 => 0
  | L + 1 => identPrefixSum52 L + 52 * 62 ^ L

/-- Smallest `L ≥ 1` with `identPrefixSum52 L > n`. -/
def identLenSpec52 (n : Nat) : Nat :=
  Nat.find (p := fun L => identPrefixSum52 (L + 1) > n)
    ⟨n, by
      have h : n + 1 ≤ identPrefixSum52 (n + 1) := by
        induction n with
        | zero => decide
        | succ k ih =>
          have hx : 1 ≤ 52 * 62 ^ (k + 1) :=
            Nat.one_le_iff_ne_zero.mpr
              (Nat.mul_ne_zero (by decide) (pow_ne_zero _ (by decide)))
          have heq : identPrefixSum52 (k + 1 + 1) =
              identPrefixSum52 (k + 1) + 52 * 62 ^ (k + 1) := rfl
          omega
      omega⟩ + 1

/-- The original claim's identifier map (52 first characters, base 62). -/
def genIdentSpec52 (n : Nat) : List Char :=
  genIdentFormula 52 62 identPrefixSum52 (identLenSpec52 n) n

/-- The amended identifier map (53 first characters, base 63 — the
constants actually used by the code). -/
def genIdentSpecAm (n : Nat) : List Char :=
  genIdentFormula first second identPrefixSum (identLenSpec n) n

/-! ### ast/ast.go: the syntax tree. Interface types (`Expr`, `Stmt`,
`Entry`, `Args`) become inductives; interface-typed fields, which may be
nil in Go, become `Option`; pointer-to-struct optional fields become
`Option`; embedded structs stay plain fields. The `tree` package's node
types have the same shape (its name slots hold the token directly; `Name`
here carries exactly a token), so this embedding serves both packages. -/

/-- ast/ast.go: `StringExpr`. -/
structure StringExprS where
  stringToken : Tok
deriving DecidableEq, Repr

/-- ast/ast.go: `FuncNameList` — dot-separated names with an optional
`:method` suffix (`ColonToken`/`Method` are INVALID when absent). -/
structure FuncNameListN where
  items : List NameN
  seps : List Tok
  colonToken : Tok
  method : NameN
deriving DecidableEq, Repr

mutual

inductive Expr where
  | number (numberToken : Tok)
  | strE (s : StringExprS)
  | nilE (nilToken : Tok)
  | boolE (boolToken : Tok)
  | varargE (varargToken : Tok)
  | unop (unopToken : Tok) (operand : Option Expr)
  | binop (left : Option Expr) (binopToken : Tok) (right : Option Expr)
  | paren (lparenToken : Tok) (value : Option Expr) (rparenToken : Tok)
  | varE (name : NameN)
  | table (t : TableCtor)
  | func (f : FunctionExprX)
  | fieldE (value : Option Expr) (dotToken : Tok) (name : NameN)
  | indexE (value : Option Expr) (lbrackToken : Tok) (index : Option Expr) (rbrackToken : Tok)
  | methodE (value : Option Expr) (colonToken : Tok) (name : NameN) (args : Option Args)
  | callE (value : Option Expr) (args : Option Args)

inductive TableCtor where
  | mk (lbraceToken : Tok) (entries : EntryList) (rbraceToken : Tok)

inductive EntryList where
  | mk (items : List (Option Entry)) (seps : List Tok)

inductive Entry where
  | indexEntry (lbrackToken : Tok) (key : Option Expr) (rbrackToken : Tok)
      (assignToken : Tok) (value : Option Expr)
  | fieldEntry (name : NameN) (assignToken : Tok) (value : Option Expr)
  | valueEntry (value : Option Expr)

inductive Args where
  | listArgs (lparenToken : Tok) (values : Option ExprList) (rparenToken : Tok)
  | tableArg (value : TableCtor)
  | stringArg (value : StringExprS)

inductive ExprList where
  | mk (items : List (Option Expr)) (seps : List Tok)

inductive FunctionExprX where
  | mk (funcToken : Tok) (lparenToken : Tok) (params : Option NameListN)
      (varargSepToken : Tok) (varargToken : Tok) (rparenToken : Tok)
      (body : Block) (endToken : Tok)

inductive Block where
  | mk (items : List (Option Stmt)) (seps : List Tok)

inductive Stmt where
  | doS (doToken : Tok) (body : Block) (endToken : Tok)
  | assign (left : ExprList) (assignToken : Tok) (right : ExprList)
  | callS (call : Option Expr)
  | ifS (ifToken : Tok) (cond : Option Expr) (thenToken : Tok) (body : Block)
      (elseIf : List ElseIfClause) (els : Option ElseClause) (endToken : Tok)
  | numericFor (forToken : Tok) (name : NameN) (assignToken : Tok)
      (min : Option Expr) (maxSepToken : Tok) (max : Option Expr)
      (stepSepToken : Tok) (step : Option Expr) (doToken : Tok)
      (body : Block) (endToken : Tok)
  | genericFor (forToken : Tok) (names : NameListN) (inToken : Tok)
      (iterator : ExprList) (doToken : Tok) (body : Block) (endToken : Tok)
  | whileS (whileToken : Tok) (cond : Option Expr) (doToken : Tok)
      (body : Block) (endToken : Tok)
  | repeatS (repeatToken : Tok) (body : Block) (untilToken : Tok) (cond : Option Expr)
  | localVar (localToken : Tok) (names : NameListN) (assignToken : Tok)
      (values : Option ExprList)
  | localFunc (localToken : Tok) (name : NameN) (fn : FunctionExprX)
  | funcS (name : FuncNameListN) (fn : FunctionExprX)
  | breakS (breakToken : Tok)
  | returnS (returnToken : Tok) (values : Option ExprList)

inductive ElseIfClause where
  | mk (elseIfToken : Tok) (cond : Option Expr) (thenToken : Tok) (body : Block)

inductive ElseClause where
  | mk (elseToken : Tok) (body : Block)

end

/-- token/position.go: `File` — the file descriptor (name and line-start
offsets); the mutex is irrelevant to a sequential embedding. -/
structure FileInfo where
  name : List Char
  lines : List Nat
deriving DecidableEq, Repr

/-- ast/ast.go: `File` — the root node. -/
structure FileN where
  info : FileInfo
  body : Block
  eofToken : Tok

/-! ### ast print (src/unnamed/part_003): `WriteTo` methods, embedded as
pure byte emission (the writers used here are in-memory buffers, whose
writes do not fail, so the copier's error short-circuit never fires). -/

/-- part_003: `Token.WriteTo` — every prefix's bytes, then the token's own
bytes (no validity checks at this level). -/
def Tok.emit (t : Tok) : List Char := (t.pre.map Pre.bytes).flatten ++ t.bytes

/-- part_003: `Name.WriteTo` (a name writes its token). -/
def NameN.emit (n : NameN) : List Char := n.token.emit

/-- part_003: the item/separator interleaving shared by the list nodes:
after item `i`, separator `i` is written when present and valid. -/
def emitSepList (emitItem : α → List Char) : List α → List Tok → List Char
  | [], _ => []
  | x :: xs, [] => emitItem x ++ emitSepList emitItem xs []
  | x :: xs, s :: rest =>
      emitItem x ++ (if s.type.IsValid then s.emit else []) ++ emitSepList emitItem xs rest

/-- part_003: `NameList.WriteTo`. -/
def NameListN.emit (l : NameListN) : List Char := emitSepList NameN.emit l.items l.seps

/-- part_003: `FuncNameList.WriteTo`. The source writes only `Items` and
valid `Seps`; it never writes `ColonToken` or `Method`. -/
def FuncNameListN.emit (l : FuncNameListN) : List Char :=
  emitSepList NameN.emit l.items l.seps

/-- part_003: `StringExpr.WriteTo`. -/
def StringExprS.emit (s : StringExprS) : List Char := s.stringToken.emit

mutual

/-- part_003: the `WriteTo` methods of the expression nodes. -/
def emitExpr : Expr → List Char
  | .number t => t.emit
  | .strE s => s.emit
  | .nilE t => t.emit
  | .boolE t => t.emit
  | .varargE t => t.emit
  | .unop u operand => u.emit ++ emitOptExpr operand
  | .binop l op r => emitOptExpr l ++ op.emit ++ emitOptExpr r
  | .paren l v r => l.emit ++ emitOptExpr v ++ r.emit
  | .varE n => n.emit
  | .table t => emitTable t
  | .func f => emitFunction f
  | .fieldE v dot n => emitOptExpr v ++ dot.emit ++ n.emit
  | .indexE v l ix r => emitOptExpr v ++ l.emit ++ emitOptExpr ix ++ r.emit
  | .methodE v colon n args => emitOptExpr v ++ colon.emit ++ n.emit ++ emitOptArgs args
  | .callE v args => emitOptExpr v ++ emitOptArgs args

/-- `copier.writeTo` with a nil writer-to writes nothing. -/
def emitOptExpr : Option Expr → List Char
  | none => []
  | some e => emitExpr e

def emitTable : TableCtor → List Char
  | .mk l entries r => l.emit ++ emitEntryList entries ++ r.emit

/-- part_003: `EntryList.WriteTo`. -/
def emitEntryList : EntryList → List Char
  | .mk items seps => emitEntryItems items seps

def emitEntryItems : List (Option Entry) → List Tok → List Char
  | [], _ => []
  | x :: xs, [] => emitOptEntry x ++ emitEntryItems xs []
  | x :: xs, s :: rest =>
      emitOptEntry x ++ (if s.type.IsValid then s.emit else []) ++ emitEntryItems xs rest

def emitOptEntry : Option Entry → List Char
  | none => []
  | some e => emitEntry e

def emitEntry : Entry → List Char
  | .indexEntry l k r assignTok v =>
      l.emit ++ emitOptExpr k ++ r.emit ++ assignTok.emit ++ emitOptExpr v
  | .fieldEntry n assignTok v => n.emit ++ assignTok.emit ++ emitOptExpr v
  | .valueEntry v => emitOptExpr v

def emitArgs : Args → List Char
  | .listArgs l values r => l.emit ++ emitOptExprList values ++ r.emit
  | .tableArg t => emitTable t
  | .stringArg s => s.emit

def emitOptArgs : Option Args → List Char
  | none => []
  | some a => emitArgs a

def emitExprList : ExprList → List Char
  | .mk items seps => emitExprItems items seps

def emitExprItems : List (Option Expr) → List Tok → List Char
  | [], _ => []
  | x :: xs, [] => emitOptExpr x ++ emitExprItems xs []
  | x :: xs, s :: rest =>
      emitOptExpr x ++ (if s.type.IsValid then s.emit else []) ++ emitExprItems xs rest

def emitOptExprList : Option ExprList → List Char
  | none => []
  | some l => emitExprList l

/-- part_003: `FunctionExpr.WriteTo` (the same emission is inlined in
`LocalFunctionStmt.WriteTo` and `FunctionStmt.WriteTo`, after the tokens
that precede the parameter list). -/
def emitFunction : FunctionExprX → List Char
  | .mk funcTok lparen params varargSep vararg rparen body endTok =>
      funcTok.emit ++ lparen.emit ++ emitParams params varargSep vararg
        ++ rparen.emit ++ emitBlock body ++ endTok.emit

/-- part_003: the parameter-list portion of `FunctionExpr.WriteTo`:
`Params` (when present) followed by the vararg pair when the separator is
valid; with no `Params`, the vararg token alone when valid. -/
def emitParams : Option NameListN → Tok → Tok → List Char
  | some l, varargSep, vararg =>
      l.emit ++ (if varargSep.type.IsValid then varargSep.emit ++ vararg.emit else [])
  | none, _, vararg => if vararg.type.IsValid then vararg.emit else []

def emitBlock : Block → List Char
  | .mk items seps => emitStmtItems items seps

def emitStmtItems : List (Option Stmt) → List Tok → List Char
  | [], _ => []
  | x :: xs, [] => emitOptStmt x ++ emitStmtItems xs []
  | x :: xs, s :: rest =>
      emitOptStmt x ++ (if s.type.IsValid then s.emit else []) ++ emitStmtItems xs rest

def emitOptStmt : Option Stmt → List Char
  | none => []
  | some s => emitStmt s

def emitStmt : Stmt → List Char
  | .doS doTok body endTok => doTok.emit ++ emitBlock body ++ endTok.emit
  | .assign l assignTok r => emitExprList l ++ assignTok.emit ++ emitExprList r
  | .callS c => emitOptExpr c
  | .ifS ifTok cond thenTok body elseIf els endTok =>
      ifTok.emit ++ emitOptExpr cond ++ thenTok.emit ++ emitBlock body
        ++ emitElseIfs elseIf ++ emitOptElse els ++ endTok.emit
  | .numericFor forTok name assignTok min maxSep max stepSep step doTok body endTok =>
      forTok.emit ++ name.emit ++ assignTok.emit ++ emitOptExpr min
        ++ maxSep.emit ++ emitOptExpr max
        ++ (if stepSep.type.IsValid then stepSep.emit ++ emitOptExpr step else [])
        ++ doTok.emit ++ emitBlock body ++ endTok.emit
  | .genericFor forTok names inTok iterator doTok body endTok =>
      forTok.emit ++ names.emit ++ inTok.emit ++ emitExprList iterator
        ++ doTok.emit ++ emitBlock body ++ endTok.emit
  | .whileS whileTok cond doTok body endTok =>
      whileTok.emit ++ emitOptExpr cond ++ doTok.emit ++ emitBlock body ++ endTok.emit
  | .repeatS repeatTok body untilTok cond =>
      repeatTok.emit ++ emitBlock body ++ untilTok.emit ++ emitOptExpr cond
  | .localVar localTok names assignTok values =>
      localTok.emit ++ names.emit
        ++ (if assignTok.type.IsValid then assignTok.emit ++ emitOptExprList values else [])
  | .localFunc localTok name fn => emitLocalFunc localTok name fn
  | .funcS name fn => emitFuncStmt name fn
  | .breakS t => t.emit
  | .returnS t values => t.emit ++ emitOptExprList values

/-- part_003: `LocalFunctionStmt.WriteTo` (the name is written between the
function token and the left parenthesis). -/
def emitLocalFunc (localTok : Tok) (name : NameN) : FunctionExprX → List Char
  | .mk funcTok lparen params varargSep vararg rparen body endTok =>
      localTok.emit ++ funcTok.emit ++ name.emit ++ lparen.emit
        ++ emitParams params varargSep vararg
        ++ rparen.emit ++ emitBlock body ++ endTok.emit

/-- part_003: `FunctionStmt.WriteTo`. -/
def emitFuncStmt (name : FuncNameListN) : FunctionExprX → List Char
  | .mk funcTok lparen params varargSep vararg rparen body endTok =>
      funcTok.emit ++ name.emit ++ lparen.emit
        ++ emitParams params varargSep vararg
        ++ rparen.emit ++ emitBlock body ++ endTok.emit

def emitElseIfs : List ElseIfClause → List Char
  | [] => []
  | c :: rest => emitElseIf c ++ emitElseIfs rest

def emitElseIf : ElseIfClause → List Char
  | .mk elseifTok cond thenTok body =>
      elseifTok.emit ++ emitOptExpr cond ++ thenTok.emit ++ emitBlock body

def emitOptElse : Option ElseClause → List Char
  | none => []
  | some (.mk elseTok body) => elseTok.emit ++ emitBlock body

end

/-- part_003: `File.WriteTo` — the body block, then the EOF token. -/
def FileN.emit (f : FileN) : List Char := emitBlock f.body ++ f.eofToken.emit

/-! ### src/go/ast/print.go lines 929-1254: `WalkTokens` — the standalone
token walk. It is embedded as the sequence of tokens passed to
`VisitToken`, in visit order (the visitor's node/index arguments do not
affect which tokens are visited). The `tree` package field names
(`NameToken`, `MethodToken`) correspond to the `name`/`method` fields
here, which hold exactly the token. -/

/-- The item/separator interleaving of the list cases of `WalkTokens`:
after walking item `i`, separator `i` is visited whenever `i < len(Seps)`
(no validity check). -/
def wtSepList (walkItem : α → List Tok) : List α → List Tok → List Tok
  | [], _ => []
  | x :: xs, [] => walkItem x ++ wtSepList walkItem xs []
  | x :: xs, s :: rest => walkItem x ++ s :: wtSepList walkItem xs rest

/-- `WalkTokens`, `NameList` case: items and separators interleaved. -/
def wtNameList (l : NameListN) : List Tok :=
  wtSepList (fun n => [n.token]) l.items l.seps

/-- `WalkTokens`, `FuncNameList` case: items and separators interleaved,
then the colon token and the method token (both unconditionally). -/
def wtFuncNameList (l : FuncNameListN) : List Tok :=
  wtSepList (fun n => [n.token]) l.items l.seps ++ [l.colonToken, l.method.token]

mutual

def wtExpr : Expr → List Tok
  | .number t => [t]
  | .strE s => [s.stringToken]
  | .nilE t => [t]
  | .boolE t => [t]
  | .varargE t => [t]
  | .unop u operand => u :: wtOptExpr operand
  | .binop l op r => wtOptExpr l ++ op :: wtOptExpr r
  | .paren l v r => l :: wtOptExpr v ++ [r]
  | .varE n => [n.token]
  | .table t => wtTable t
  | .func f => wtFunction f
  | .fieldE v dot n => wtOptExpr v ++ [dot, n.token]
  | .indexE v l ix r => wtOptExpr v ++ l :: wtOptExpr ix ++ [r]
  | .methodE v colon n args => wtOptExpr v ++ colon :: n.token :: wtOptArgs args
  | .callE v args => wtOptExpr v ++ wtOptArgs args

def wtOptExpr : Option Expr → List Tok
  | none => []
  | some e => wtExpr e

def wtTable : TableCtor → List Tok
  | .mk l entries r => l :: wtEntryList entries ++ [r]

def wtEntryList : EntryList → List Tok
  | .mk items seps => wtEntryItems items seps

def wtEntryItems : List (Option Entry) → List Tok → List Tok
  | [], _ => []
  | x :: xs, [] => wtOptEntry x ++ wtEntryItems xs []
  | x :: xs, s :: rest => wtOptEntry x ++ s :: wtEntryItems xs rest

def wtOptEntry : Option Entry → List Tok
  | none => []
  | some e => wtEntry e

def wtEntry : Entry → List Tok
  | .indexEntry l k r assignTok v => l :: wtOptExpr k ++ r :: assignTok :: wtOptExpr v
  | .fieldEntry n assignTok v => n.token :: assignTok :: wtOptExpr v
  | .valueEntry v => wtOptExpr v

def wtArgs : Args → List Tok
  | .listArgs l values r => l :: wtOptExprList values ++ [r]
  | .tableArg t => wtTable t
  | .stringArg s => [s.stringToken]

def wtOptArgs : Option Args → List Tok
  | none => []
  | some a => wtArgs a

def wtExprList : ExprList → List Tok
  | .mk items seps => wtExprItems items seps

def wtExprItems : List (Option Expr) → List Tok → List Tok
  | [], _ => []
  | x :: xs, [] => wtOptExpr x ++ wtExprItems xs []
  | x :: xs, s :: rest => wtOptExpr x ++ s :: wtExprItems xs rest

def wtOptExprList : Option ExprList → List Tok
  | none => []
  | some l => wtExprList l

/-- `WalkTokens`, `FunctionExpr` case: func, lparen, params (when
non-nil), then vararg separator and vararg tokens unconditionally,
rparen, body, end. -/
def wtFunction : FunctionExprX → List Tok
  | .mk funcTok lparen params varargSep vararg rparen body endTok =>
      funcTok :: lparen :: wtOptParams params
        ++ varargSep :: vararg :: rparen :: wtBlock body ++ [endTok]

def wtOptParams : Option NameListN → List Tok
  | none => []
  | some l => wtNameList l

def wtBlock : Block → List Tok
  | .mk items seps => wtStmtItems items seps

def wtStmtItems : List (Option Stmt) → List Tok → List Tok
  | [], _ => []
  | x :: xs, [] => wtOptStmt x ++ wtStmtItems xs []
  | x :: xs, s :: rest => wtOptStmt x ++ s :: wtStmtItems xs rest

def wtOptStmt : Option Stmt → List Tok
  | none => []
  | some s => wtStmt s

/-- `WalkTokens`, statement cases. In the `IfStmt` case (print.go lines
1123-1135) the visited tokens are the if token, the condition, the then
token, the body, the elseif clauses and the else clause; `EndToken` is
not visited. -/
def wtStmt : Stmt → List Tok
  | .doS doTok body endTok => doTok :: wtBlock body ++ [endTok]
  | .assign l assignTok r => wtExprList l ++ assignTok :: wtExprList r
  | .callS c => wtOptExpr c
  | .ifS ifTok cond thenTok body elseIf els _endTok =>
      ifTok :: wtOptExpr cond ++ thenTok :: wtBlock body
        ++ wtElseIfs elseIf ++ wtOptElse els
  | .numericFor forTok name assignTok min maxSep max stepSep step doTok body endTok =>
      forTok :: name.token :: assignTok :: wtOptExpr min
        ++ maxSep :: wtOptExpr max ++ stepSep :: wtOptExpr step
        ++ doTok :: wtBlock body ++ [endTok]
  | .genericFor forTok names inTok iterator doTok body endTok =>
      forTok :: wtNameList names ++ inTok :: wtExprList iterator
        ++ doTok :: wtBlock body ++ [endTok]
  | .whileS whileTok cond doTok body endTok =>
      whileTok :: wtOptExpr cond ++ doTok :: wtBlock body ++ [endTok]
  | .repeatS repeatTok body untilTok cond =>
      repeatTok :: wtBlock body ++ untilTok :: wtOptExpr cond
  | .localVar localTok names assignTok values =>
      localTok :: wtNameList names ++ assignTok :: wtOptExprList values
  | .localFunc localTok name fn => wtLocalFunc localTok name fn
  | .funcS name fn => wtFuncStmt name fn
  | .breakS t => [t]
  | .returnS t values => t :: wtOptExprList values

def wtLocalFunc (localTok : Tok) (name : NameN) : FunctionExprX → List Tok
  | .mk funcTok lparen params varargSep vararg rparen body endTok =>
      localTok :: funcTok :: name.token :: lparen :: wtOptParams params
        ++ varargSep :: vararg :: rparen :: wtBlock body ++ [endTok]

def wtFuncStmt (name : FuncNameListN) : FunctionExprX → List Tok
  | .mk funcTok lparen params varargSep vararg rparen body endTok =>
      funcTok :: wtFuncNameList name ++ lparen :: wtOptParams params
        ++ varargSep :: vararg :: rparen :: wtBlock body ++ [endTok]

def wtElseIfs : List ElseIfClause → List Tok
  | [] => []
  | c :: rest => wtElseIf c ++ wtElseIfs rest

def wtElseIf : ElseIfClause → List Tok
  | .mk elseifTok cond thenTok body =>
      elseifTok :: wtOptExpr cond ++ thenTok :: wtBlock body

def wtOptElse : Option ElseClause → List Tok
  | none => []
  | some (.mk elseTok body) => elseTok :: wtBlock body

end

/-- `WalkTokens`, `File` case: the body block, then the EOF token. -/
def wtFile (f : FileN) : List Tok := wtBlock f.body ++ [f.eofToken]

/-! ### src/go/ast/print.go lines 1290-1763: the `tree` package `Walk`,
which dispatches token visits when the visitor is a `TokenVisitor`
(`tvok`); this is the walk that `tree.FixTokenOffsets` runs. It is
embedded as the visited token sequence. It differs from `WalkTokens`
in the `IfStmt` case, which does visit `EndToken` (line 1585). -/

def wkNameList (l : NameListN) : List Tok :=
  wtSepList (fun n => [n.token]) l.items l.seps

def wkFuncNameList (l : FuncNameListN) : List Tok :=
  wtSepList (fun n => [n.token]) l.items l.seps ++ [l.colonToken, l.method.token]

mutual

def wkExpr : Expr → List Tok
  | .number t => [t]
  | .strE s => [s.stringToken]
  | .nilE t => [t]
  | .boolE t => [t]
  | .varargE t => [t]
  | .unop u operand => u :: wkOptExpr operand
  | .binop l op r => wkOptExpr l ++ op :: wkOptExpr r
  | .paren l v r => l :: wkOptExpr v ++ [r]
  | .varE n => [n.token]
  | .table t => wkTable t
  | .func f => wkFunction f
  | .fieldE v dot n => wkOptExpr v ++ [dot, n.token]
  | .indexE v l ix r => wkOptExpr v ++ l :: wkOptExpr ix ++ [r]
  | .methodE v colon n args => wkOptExpr v ++ colon :: n.token :: wkOptArgs args
  | .callE v args => wkOptExpr v ++ wkOptArgs args

def wkOptExpr : Option Expr → List Tok
  | none => []
  | some e => wkExpr e

def wkTable : TableCtor → List Tok
  | .mk l entries r => l :: wkEntryList entries ++ [r]

def wkEntryList : EntryList → List Tok
  | .mk items seps => wkEntryItems items seps

def wkEntryItems : List (Option Entry) → List Tok → List Tok
  | [], _ => []
  | x :: xs, [] => wkOptEntry x ++ wkEntryItems xs []
  | x :: xs, s :: rest => wkOptEntry x ++ s :: wkEntryItems xs rest

def wkOptEntry : Option Entry → List Tok
  | none => []
  | some e => wkEntry e

def wkEntry : Entry → List Tok
  | .indexEntry l k r assignTok v => l :: wkOptExpr k ++ r :: assignTok :: wkOptExpr v
  | .fieldEntry n assignTok v => n.token :: assignTok :: wkOptExpr v
  | .valueEntry v => wkOptExpr v

def wkArgs : Args → List Tok
  | .listArgs l values r => l :: wkOptExprList values ++ [r]
  | .tableArg t => wkTable t
  | .stringArg s => [s.stringToken]

def wkOptArgs : Option Args → List Tok
  | none => []
  | some a => wkArgs a

def wkExprList : ExprList → List Tok
  | .mk items seps => wkExprItems items seps

def wkExprItems : List (Option Expr) → List Tok → List Tok
  | [], _ => []
  | x :: xs, [] => wkOptExpr x ++ wkExprItems xs []
  | x :: xs, s :: rest => wkOptExpr x ++ s :: wkExprItems xs rest

def wkOptExprList : Option ExprList → List Tok
  | none => []
  | some l => wkExprList l

def wkFunction : FunctionExprX → List Tok
  | .mk funcTok lparen params varargSep vararg rparen body endTok =>
      funcTok :: lparen :: wkOptParams params
        ++ varargSep :: vararg :: rparen :: wkBlock body ++ [endTok]

def wkOptParams : Option NameListN → List Tok
  | none => []
  | some l => wkNameList l

def wkBlock : Block → List Tok
  | .mk items seps => wkStmtItems items seps

def wkStmtItems : List (Option Stmt) → List Tok → List Tok
  | [], _ => []
  | x :: xs, [] => wkOptStmt x ++ wkStmtItems xs []
  | x :: xs, s :: rest => wkOptStmt x ++ s :: wkStmtItems xs rest

def wkOptStmt : Option Stmt → List Tok
  | none => []
  | some s => wkStmt s

def wkStmt : Stmt → List Tok
  | .doS doTok body endTok => doTok :: wkBlock body ++ [endTok]
  | .assign l assignTok r => wkExprList l ++ assignTok :: wkExprList r
  | .callS c => wkOptExpr c
  | .ifS ifTok cond thenTok body elseIf els endTok =>
      ifTok :: wkOptExpr cond ++ thenTok :: wkBlock body
        ++ wkElseIfs elseIf ++ wkOptElse els ++ [endTok]
  | .numericFor forTok name assignTok min maxSep max stepSep step doTok body endTok =>
      forTok :: name.token :: assignTok :: wkOptExpr min
        ++ maxSep :: wkOptExpr max ++ stepSep :: wkOptExpr step
        ++ doTok :: wkBlock body ++ [endTok]
  | .genericFor forTok names inTok iterator doTok body endTok =>
      forTok :: wkNameList names ++ inTok :: wkExprList iterator
        ++ doTok :: wkBlock body ++ [endTok]
  | .whileS whileTok cond doTok body endTok =>
      whileTok :: wkOptExpr cond ++ doTok :: wkBlock body ++ [endTok]
  | .repeatS repeatTok body untilTok cond =>
      repeatTok :: wkBlock body ++ untilTok :: wkOptExpr cond
  | .localVar localTok names assignTok values =>
      localTok :: wkNameList names ++ assignTok :: wkOptExprList values
  | .localFunc localTok name fn => wkLocalFunc localTok name fn
  | .funcS name fn => wkFuncStmt name fn
  | .breakS t => [t]
  | .returnS t values => t :: wkOptExprList values

def wkLocalFunc (localTok : Tok) (name : NameN) : FunctionExprX → List Tok
  | .mk funcTok lparen params varargSep vararg rparen body endTok =>
      localTok :: funcTok :: name.token :: lparen :: wkOptParams params
        ++ varargSep :: vararg :: rparen :: wkBlock body ++ [endTok]

def wkFuncStmt (name : FuncNameListN) : FunctionExprX → List Tok
  | .mk funcTok lparen params varargSep vararg rparen body endTok =>
      funcTok :: wkFuncNameList name ++ lparen :: wkOptParams params
        ++ varargSep :: vararg :: rparen :: wkBlock body ++ [endTok]

def wkElseIfs : List ElseIfClause → List Tok
  | [] => []
  | c :: rest => wkElseIf c ++ wkElseIfs rest

def wkElseIf : ElseIfClause → List Tok
  | .mk elseifTok cond thenTok body =>
      elseifTok :: wkOptExpr cond ++ thenTok :: wkBlock body

def wkOptElse : Option ElseClause → List Tok
  | none => []
  | some (.mk elseTok body) => elseTok :: wkBlock body

end

def wkFile (f : FileN) : List Tok := wkBlock f.body ++ [f.eofToken]

/-! ### token/position.go `AddLine` and tree/reflow.go `offsetFixer`,
`FixTokenOffsets`. The claim under examination concerns the resulting
line table, so the fixer is embedded as a fold over the visited token
sequence carrying the running offset and the line table. -/

/-- token/position.go: `File.AddLine` — appends only when the table is
empty or strictly grows. -/
def addLine (lines : List Nat) (offset : Nat) : List Nat :=
  match lines.getLast? with
  | none => lines ++ [offset]
  | some l => if l < offset then lines ++ [offset] else lines

/-- tree/reflow.go: `offsetFixer.scanNewlines` — reports the position of
each `\n` byte to `AddLine`; `pos` is the running absolute offset. -/
def scanNL : List Char → Nat → List Nat → List Nat
  | [], _, lines => lines
  | c :: rest, pos, lines =>
      scanNL rest (pos + 1) (if c = '\n' then addLine lines pos else lines)

/-- tree/reflow.go: `offsetFixer.VisitToken` — skips invalid tokens;
skips invalid prefixes entirely; scans and counts valid prefixes, then
the token's bytes. (The `tok.Offset` assignment does not affect the line
table and is dropped here.) -/
def fixTok (st : Nat × List Nat) (t : Tok) : Nat × List Nat :=
  if !t.type.IsValid then st
  else
    let st1 := t.pre.foldl
      (fun s p =>
        if !p.type.IsValid then s
        else (s.1 + p.bytes.length, scanNL p.bytes s.1 s.2)) st
    (st1.1 + t.bytes.length, scanNL t.bytes st1.1 st1.2)

/-- tree/reflow.go: `FixTokenOffsets(file, offset)` — clears the file's
line table, then visits every token (via the tree `Walk`); the result is
the file's new line table. -/
def fixTokenOffsetsLines (f : FileN) (offset : Nat) : List Nat :=
  ((wkFile f).foldl fixTok (offset, [])).2

/-! ### go/scanner/scanner.go: the scanner. Characters are handled as Go
runes: `Int` values, with -1 (`eof`) for end of input. Loops that the
source runs without a bound are given explicit fuel; exhausting fuel
yields `none` (the Go code would still be looping, as with an unfinished
long bracket at end of file). Line additions go through `addLine` on the
state's line table, and every `error` report is appended to `errs` (the
handler the parser installs stores the report into `p.err`, overwriting
the previous one, so the current `p.err` is the last entry of `errs`). -/

/-- scanner errors: the reported offset and message. -/
structure ScanErr where
  off : Nat
  msg : List Char
deriving DecidableEq, Repr

structure ScanState where
  src : List Char
  ch : Int
  offset : Nat
  rdOffset : Nat
  lineOffset : Nat
  lines : List Nat
  errs : List ScanErr
deriving DecidableEq, Repr

/-- A character as a rune value. -/
def cInt (c : Char) : Int := (c.toNat : Int)

def isDigitI (ch : Int) : Bool := cInt '0' ≤ ch && ch ≤ cInt '9'

def isLetterI (ch : Int) : Bool :=
  (cInt 'a' ≤ ch && ch ≤ cInt 'z') || (cInt 'A' ≤ ch && ch ≤ cInt 'Z') || ch = cInt '_'

def isSpaceI (ch : Int) : Bool :=
  ch = cInt ' ' || ch = cInt '\t' || ch = cInt '\n' || ch = cInt '\r'
    || ch = cInt (Char.ofNat 11) || ch = cInt (Char.ofNat 12)

/-- scanner.go: `Scanner.next`. -/
def ScanState.next (s : ScanState) : ScanState :=
  if s.rdOffset < s.src.length then
    let off := s.rdOffset
    let s := { s with offset := off }
    let s := if s.ch = cInt '\n'
      then { s with lineOffset := off, lines := addLine s.lines off } else s
    { s with ch := cInt (s.src.getD s.rdOffset ' '), rdOffset := s.rdOffset + 1 }
  else
    let off := s.src.length
    let s := { s with offset := off }
    let s := if s.ch = cInt '\n'
      then { s with lineOffset := off, lines := addLine s.lines off } else s
    { s with ch := -1 }

/-- scanner.go: `Scanner.Init` (the line table starts as `NewFile`'s
`[0]`, and the error handler is the parser's). -/
def scanInit (src : List Char) : ScanState :=
  ScanState.next { src := src, ch := cInt ' ', offset := 0, rdOffset := 0,
                   lineOffset := 0, lines := [0], errs := [] }

/-- scanner.go: `Scanner.error` — report through the handler. -/
def ScanState.error (s : ScanState) (off : Nat) (msg : List Char) : ScanState :=
  { s with errs := s.errs ++ [⟨off, msg⟩] }

/-- scanner.go: `scanSpace`. -/
def scanSpace (fuel : Nat) (s : ScanState) : Option ScanState :=
  match fuel with
  | 0 => none
  | fuel + 1 => if isSpaceI s.ch then scanSpace fuel s.next else some s

/-- scanner.go: `scanName` (the name bytes are recovered from offsets by
the caller). -/
def scanName (fuel : Nat) (s : ScanState) : Option ScanState :=
  match fuel with
  | 0 => none
  | fuel + 1 =>
      if isLetterI s.ch || isDigitI s.ch then scanName fuel s.next else some s

/-- The first loop of `scanNumber` (digits and dots). -/
def scanNumDigits (fuel : Nat) (s : ScanState) : Option ScanState :=
  match fuel with
  | 0 => none
  | fuel + 1 =>
      if isDigitI s.ch || s.ch = cInt '.' then scanNumDigits fuel s.next else some s

/-- scanner.go: `scanNumber` — returns the token type (NUMBERHEX when the
lexeme starts with `0x`) and the state. `off` is the lexeme start. -/
def scanNumber (fuel : Nat) (off : Nat) (s : ScanState) : Option (TokType × ScanState) := do
  let s ← scanNumDigits fuel s
  let s := if s.ch = cInt 'e' || s.ch = cInt 'E' then
      let s := s.next
      if s.ch = cInt '+' || s.ch = cInt '-' then s.next else s
    else s
  let s ← scanName fuel s
  let lexeme := (s.src.drop off).take (s.offset - off)
  if lexeme.take 2 = ['0', 'x'] then pure (NUMBERHEX, s) else pure (NUMBERFLOAT, s)

/-- The bounded numeric-escape loop inside `scanString`
(`for i := 0; ; { c = 10*c + (s.ch - '0'); s.next(); i++;
if i >= 3 || !isDigit(s.ch) { break }; if c > 255 { error } }`). -/
def escLoop (rounds : Nat) (i : Nat) (c : Int) (off : Nat) (s : ScanState) : ScanState :=
  match rounds with
  | 0 => s
  | rounds + 1 =>
      let c := 10 * c + (s.ch - cInt '0')
      let s := s.next
      let i := i + 1
      if i ≥ 3 || !isDigitI s.ch then s
      else
        let s := if c > 255 then s.error off "escape sequence too large".toList else s
        escLoop rounds i c off s

/-- scanner.go: `scanString`. -/
def scanString (fuel : Nat) (off : Nat) (quote : Int) (s : ScanState) : Option ScanState :=
  match fuel with
  | 0 => none
  | fuel + 1 =>
      if s.ch ≠ quote then
        if s.ch = -1 then
          some (s.error off "unfinished string (EOF)".toList)
        else if s.ch = cInt '\n' || s.ch = cInt '\r' then
          some (s.error off "unfinished string (EOL)".toList)
        else if s.ch = cInt '\\' then
          let s := s.next
          if s.ch = cInt '\n' || s.ch = cInt '\r' then
            let c := s.ch
            let s := s.next
            let s := if (s.ch = cInt '\n' || s.ch = cInt '\r') && s.ch ≠ c then s.next else s
            scanString fuel off quote s
          else if s.ch = -1 then
            scanString fuel off quote s
          else if isDigitI s.ch then
            scanString fuel off quote (escLoop 3 0 0 off s)
          else
            scanString fuel off quote s.next
        else
          scanString fuel off quote s.next
      else
        some s.next

/-- The inner `=`-matching loop of `scanLongString`: consumes up to `eq`
equals signs; returns whether all matched. -/
def consumeEq : Nat → ScanState → Bool × ScanState
  | 0, s => (true, s)
  | eq + 1, s => if s.ch = cInt '=' then consumeEq eq s.next else (false, s)

/-- The closing-bracket search loop of `scanLongString` (labelled `loop`
in the source; reports "unfinished long string/comment" at EOF and, as in
the source, keeps looping — fuel bounds the embedding). -/
def lsLoop (fuel : Nat) (eq : Nat) (t : TokType) (off : Nat) (s : ScanState) :
    Option ScanState :=
  match fuel with
  | 0 => none
  | fuel + 1 =>
      let s := if s.ch = -1 then
          (if t = LONGCOMMENT then s.error off "unfinished long comment near '<eof>'".toList
           else s.error off "unfinished long string near '<eof>'".toList)
        else s
      if s.ch = cInt ']' then
        let s := s.next
        match consumeEq eq s with
        | (false, s) => lsLoop fuel eq t off s
        | (true, s) =>
            if s.ch = cInt ']' then some s.next
            else lsLoop fuel eq t off s.next
      else lsLoop fuel eq t off s.next

/-- The `=`-counting loop opening `scanLongString`. -/
def countEq (fuel : Nat) (eq : Nat) (s : ScanState) : Option (Nat × ScanState) :=
  match fuel with
  | 0 => none
  | fuel + 1 => if s.ch = cInt '=' then countEq fuel (eq + 1) s.next else some (eq, s)

/-- scanner.go: `scanLongString`. -/
def scanLongString (fuel : Nat) (off : Nat) (t : TokType) (s : ScanState) :
    Option ScanState := do
  let (eq, s) ← countEq fuel 0 s
  if s.ch ≠ cInt '[' then
    pure (s.error off "invalid long string delimiter near '<off:s.offset>'".toList)
  else
    lsLoop fuel eq t off s.next

/-- The line-comment loop of `scanComment`. -/
def commentLoop (fuel : Nat) (s : ScanState) : Option ScanState :=
  match fuel with
  | 0 => none
  | fuel + 1 =>
      if s.ch ≠ cInt '\n' && s.ch ≠ -1 then commentLoop fuel s.next else some s

/-- scanner.go: `scanComment`. -/
def scanComment (fuel : Nat) (off : Nat) (s : ScanState) : Option (TokType × ScanState) := do
  let s := s.next
  if s.ch = cInt '[' then
    let s := s.next
    let s ← scanLongString fuel off LONGCOMMENT s
    pure (LONGCOMMENT, s)
  else do
    let s ← commentLoop fuel s
    pure (COMMENT, s)

/-- `src[a:b]` as a list. -/
def subSlice (src : List Char) (a b : Nat) : List Char := (src.drop a).take (b - a)

/-- scanner.go: `Scanner.Scan` — one token: its offset, type and bytes.
(`scanString`'s initial `quote := s.ch; s.next()` is inlined at the call
site; the primary source file names the operator constants SUB/ADD/MUL/
DIV/MOD/EXP/LENGTH for the types called MINUS/PLUS/ASTERISK/SLASH/
PERCENT/CARET/HASH in go/token/token.go.) -/
def Scan (fuel : Nat) (s : ScanState) : Option (Nat × TokType × List Char × ScanState) := do
  let off := s.offset
  let ch := s.ch
  let (tok, s) ←
    if isSpaceI ch then do
      let s ← scanSpace fuel s
      pure (SPACE, s)
    else if isLetterI ch then do
      let s ← scanName fuel s
      pure (Lookup (subSlice s.src off s.offset), s)
    else if isDigitI ch then
      scanNumber fuel off s
    else if ch = cInt '"' || ch = cInt '\'' then do
      let quote := s.ch
      let s ← scanString fuel off quote s.next
      pure (STRING, s)
    else
      let s := s.next
      if ch = cInt '-' then
        if s.ch = cInt '-' then scanComment fuel off s
        else pure (MINUS, s)
      else if ch = cInt '+' then pure (PLUS, s)
      else if ch = cInt '*' then pure (ASTERISK, s)
      else if ch = cInt '/' then pure (SLASH, s)
      else if ch = cInt '%' then pure (PERCENT, s)
      else if ch = cInt '^' then pure (CARET, s)
      else if ch = cInt '.' then
        (if isDigitI s.ch then scanNumber fuel off s
         else if s.ch = cInt '.' then
           let s := s.next
           if s.ch = cInt '.' then pure (VARARG, s.next)
           else pure (CONCAT, s)
         else pure (DOT, s))
      else if ch = cInt '<' then
        (if s.ch = cInt '=' then pure (LEQ, s.next) else pure (LT_, s))
      else if ch = cInt '>' then
        (if s.ch = cInt '=' then pure (GEQ, s.next) else pure (GT_, s))
      else if ch = cInt '=' then
        (if s.ch = cInt '=' then pure (EQ_, s.next) else pure (ASSIGN, s))
      else if ch = cInt '~' then
        (if s.ch = cInt '=' then pure (NEQ, s.next)
         else pure (INVALID, s.error s.offset "unexpected symbol".toList))
      else if ch = cInt ';' then pure (SEMICOLON, s)
      else if ch = cInt ',' then pure (COMMA, s)
      else if ch = cInt ':' then pure (COLON, s)
      else if ch = cInt '[' then
        (if s.ch = cInt '[' || s.ch = cInt '=' then do
          let s ← scanLongString fuel off LONGSTRING s
          pure (LONGSTRING, s)
         else pure (LBRACK, s))
      else if ch = cInt ']' then pure (RBRACK, s)
      else if ch = cInt '(' then pure (LPAREN, s)
      else if ch = cInt ')' then pure (RPAREN, s)
      else if ch = cInt '{' then pure (LBRACE, s)
      else if ch = cInt '}' then pure (RBRACE, s)
      else if ch = cInt '#' then pure (HASH, s)
      else if ch = -1 then pure (EOF, s)
      else pure (INVALID, s)
  pure (off, tok, subSlice s.src off s.offset, s)

/-! ### go/parser/parser.go. The parser's state ties the scanner state to
the current token state and the one-slot lookahead. The Go parser reports
errors in two ways: the scanner's handler stores into `p.err`, and
`parser.error` stores into `p.err` and then panics with `bailout{}`.
Both overwrite `p.err`, so `p.err` is always the most recent report; the
embedding keeps the full report sequence in `scan.errs` (each assignment
to `p.err` appends), and `p.err` is its last entry. The bailout panic is
the `.bail` outcome; `none` means the fuel given to the embedding ran
out (the source has no such bound and would still be running). -/

structure PState where
  scan : ScanState
  off : Nat
  tok : TokType
  lit : List Char
  pre : List Pre
  look : Option (Nat × TokType × List Char × List Pre)
deriving DecidableEq, Repr

inductive POut (α : Type) where
  | ok (a : α) (st : PState)
  | bail (st : PState)

/-- The parser's effect shape: state, the bailout panic, and fuel. -/
abbrev PM (α : Type) := PState → Option (POut α)

instance : Monad PM where
  pure a := fun st => some (.ok a st)
  bind m f := fun st =>
    match m st with
    | none => none
    | some (.bail st) => some (.bail st)
    | some (.ok a st) => f a st

/-- Read the whole parser state. -/
def getSt : PM PState := fun st => some (.ok st st)

/-- Replace the whole parser state. -/
def setSt (st' : PState) : PM Unit := fun _ => some (.ok () st')

/-- Fuel exhaustion (an artifact of the embedding). -/
def outOfFuel : PM α := fun _ => none

/-- parser.go: `parser.error` — record the error in `p.err` and panic
with `bailout{}`. -/
def perror (off : Nat) (msg : List Char) : PM α := fun st =>
  some (.bail { st with scan := st.scan.error off msg })

/-- The prefix-accumulation loop of `parser.next`: scan, and while the
token is a prefix type, append it to `p.pre` and scan again. -/
def preLoop (fuel : Nat) (acc : List Pre) (off : Nat) (tok : TokType)
    (lit : List Char) (sc : ScanState) :
    Nat → Option (Nat × TokType × List Char × List Pre × ScanState)
  | 0 => none
  | rounds + 1 =>
      if tok.IsPre then
        match Scan fuel sc with
        | none => none
        | some (off2, tok2, lit2, sc2) =>
            preLoop fuel (acc ++ [⟨tok, lit⟩]) off2 tok2 lit2 sc2 rounds
      else some (off, tok, lit, acc, sc)

/-- parser.go: `parser.next` — consume the lookahead slot when set,
otherwise scan the next significant token, accumulating prefixes. -/
def pnext (fuel : Nat) : PM Unit := fun st =>
  match st.look with
  | some (off, tok, lit, pre) =>
      some (.ok () { st with off, tok, lit, pre, look := none })
  | none =>
      match Scan fuel st.scan with
      | none => none
      | some (off, tok, lit, sc) =>
          match preLoop fuel [] off tok lit sc fuel with
          | none => none
          | some (off, tok, lit, pre, sc) =>
              some (.ok () { st with scan := sc, off, tok, lit, pre })

/-- parser.go: `parser.lookahead` — advance once, store the resulting
state in `p.look`, restore the original token state. -/
def plookahead (fuel : Nat) : PM Unit := do
  let prev ← getSt
  pnext fuel
  let nxt ← getSt
  setSt { nxt with off := prev.off, tok := prev.tok, lit := prev.lit,
                   pre := prev.pre,
                   look := some (nxt.off, nxt.tok, nxt.lit, nxt.pre) }

/-- parser.go: `parser.token` — a token node from the current state. -/
def ptoken : PM Tok := do
  let st ← getSt
  pure ⟨st.tok, st.pre, st.off, st.lit⟩

/-- parser.go: `parser.tokenNext`. -/
def ptokenNext (fuel : Nat) : PM Tok := do
  let t ← ptoken
  pnext fuel
  pure t

/-- parser.go: `parser.expect`. -/
def pexpect (tok : TokType) : PM Unit := do
  let st ← getSt
  if st.tok ≠ tok then
    perror st.off ('\'' :: tokenString tok ++ "' expected".toList)
  else pure ()

/-- parser.go: `parser.expectToken`. -/
def pexpectToken (fuel : Nat) (tok : TokType) : PM Tok := do
  pexpect tok
  ptokenNext fuel

/-- parser.go: `parser.isBlockFollow`. -/
def pisBlockFollow : PM Bool := do
  let st ← getSt
  pure (st.tok = EOF || st.tok = ELSE || st.tok = ELSEIF
    || st.tok = UNTIL || st.tok = END)

/-- parser.go: `parser.parseName` (mode None: the `Value` field is not
evaluated). -/
def parseName (fuel : Nat) : PM NameN := do
  pexpect NAME
  let t ← ptoken
  pnext fuel
  pure ⟨t⟩

/-- parser.go: `parser.parseNumber` (mode None: no constant evaluation). -/
def parseNumber (fuel : Nat) : PM Expr := do
  let t ← ptoken
  pnext fuel
  pure (.number t)

/-- parser.go: `parser.parseString` (mode None). -/
def parseString (fuel : Nat) : PM StringExprS := do
  let st ← getSt
  if st.tok = STRING || st.tok = LONGSTRING then do
    let t ← ptoken
    pnext fuel
    pure ⟨t⟩
  else
    perror st.off ('\'' :: tokenString STRING ++ "' expected".toList)

/-- parser.go: the type-assertion `expr.(ast.Call)` — the `Call`
interface is implemented exactly by `*MethodExpr` and `*CallExpr`. -/
def Expr.isCall : Expr → Bool
  | .methodE _ _ _ _ => true
  | .callE _ _ => true
  | _ => false

/-- The zero value of `ast.FuncNameList`. -/
def FuncNameListN.zero : FuncNameListN := ⟨[], [], Tok.zero, ⟨Tok.zero⟩⟩

/-! The recursive parse functions. Each takes explicit fuel, consumed one
unit per call, and starts by matching it; the Go source has no such
bound. `funcExpr/funcLocal/funcStmt` are 0/1/2. -/

/-- The mutually recursive `parser.parse*` functions of parser.go, as a
fuel-indexed fixpoint: `ParserPack` holds one field per parse function,
`parserF` is one unfolding step (every recursive call uses the
previous approximation `p`), and `parserAt fuel` iterates it `fuel`
times from the everywhere-out-of-fuel bottom. The top-level
`parse*` wrappers below restore the per-function signatures. -/
structure ParserPack where
  parseSimpleExpr : PM Expr
  parseSubexpr (limit : Nat) : PM Expr
  parseSubLoop (limit : Nat) (expr : Expr) : PM Expr
  parseExpr : PM Expr
  parseExprList : PM ExprList
  parseExprListLoop (items : List (Option Expr)) (seps : List Tok) : PM ExprList
  parseBlockBody (term : TokType) : PM Block
  parseDoStmt : PM Stmt
  parseWhileStmt : PM Stmt
  parseRepeatStmt : PM Stmt
  parseIfStmt : PM Stmt
  parseElseIfLoop (acc : List ElseIfClause) : PM (List ElseIfClause)
  parseForStmt : PM Stmt
  parseNameListLoop (items : List NameN) (seps : List Tok) : PM NameListN
  parseFunction (typ : Nat) : PM (FunctionExprX × FuncNameListN)
  parseFuncNameLoop (items : List NameN) (seps : List Tok) : PM (List NameN × List Tok)
  parseParamsLoop (items : List NameN) (seps : List Tok) : PM (List NameN × List Tok × Tok × Tok)
  parseLocalStmt : PM Stmt
  parseFunctionStmt : PM Stmt
  parseReturnStmt : PM Stmt
  parseBreakStmt : PM Stmt
  parsePrefixExpr : PM Expr
  parseTableCtor : PM TableCtor
  parseTableLoop (items : List (Option Entry)) (seps : List Tok) : PM (List (Option Entry) × List Tok)
  parseFuncArgs : PM Args
  parseArgsLoop (acc : Option (List (Option Expr) × List Tok)) : PM (Option ExprList)
  parsePrimaryExpr : PM Expr
  parsePrimaryLoop (expr : Expr) : PM Expr
  parseExprStmt : PM Stmt
  parseAssignLeftLoop (items : List (Option Expr)) (seps : List Tok) : PM (List (Option Expr) × List Tok)
  parseStmt : PM (Stmt × Bool)
  parseBlock : PM Block
  parseBlockLoop (items : List (Option Stmt)) (seps : List Tok) : PM Block

/-- The fuel-0 approximation: every parse function is out of fuel. -/
def parserPack0 : ParserPack where
  parseSimpleExpr := outOfFuel
  parseSubexpr _ := outOfFuel
  parseSubLoop _ _ := outOfFuel
  parseExpr := outOfFuel
  parseExprList := outOfFuel
  parseExprListLoop _ _ := outOfFuel
  parseBlockBody _ := outOfFuel
  parseDoStmt := outOfFuel
  parseWhileStmt := outOfFuel
  parseRepeatStmt := outOfFuel
  parseIfStmt := outOfFuel
  parseElseIfLoop _ := outOfFuel
  parseForStmt := outOfFuel
  parseNameListLoop _ _ := outOfFuel
  parseFunction _ := outOfFuel
  parseFuncNameLoop _ _ := outOfFuel
  parseParamsLoop _ _ := outOfFuel
  parseLocalStmt := outOfFuel
  parseFunctionStmt := outOfFuel
  parseReturnStmt := outOfFuel
  parseBreakStmt := outOfFuel
  parsePrefixExpr := outOfFuel
  parseTableCtor := outOfFuel
  parseTableLoop _ _ := outOfFuel
  parseFuncArgs := outOfFuel
  parseArgsLoop _ := outOfFuel
  parsePrimaryExpr := outOfFuel
  parsePrimaryLoop _ := outOfFuel
  parseExprStmt := outOfFuel
  parseAssignLeftLoop _ _ := outOfFuel
  parseStmt := outOfFuel
  parseBlock := outOfFuel
  parseBlockLoop _ _ := outOfFuel

set_option maxHeartbeats 2000000 in
/-- One unfolding step of the mutual recursion: each body is the
parser.go function body, with mutual calls taken from the previous
approximation `p` and the scanner-level helpers run at `fuel`. -/
def parserF (fuel : Nat) (p : ParserPack) : ParserPack where
  parseSimpleExpr := do
      let st ← getSt
      if st.tok = NUMBERFLOAT || st.tok = NUMBERHEX then parseNumber fuel
      else if st.tok = STRING || st.tok = LONGSTRING then do
        let s ← parseString fuel
        pure (.strE s)
      else if st.tok = NIL then do
        let t ← ptokenNext fuel
        pure (.nilE t)
      else if st.tok = TRUE then do
        let t ← ptokenNext fuel
        pure (.boolE t)
      else if st.tok = FALSE then do
        let t ← ptokenNext fuel
        pure (.boolE t)
      else if st.tok = VARARG then do
        let t ← ptokenNext fuel
        pure (.varargE t)
      else if st.tok = LBRACE then do
        let t ← p.parseTableCtor
        pure (.table t)
      else if st.tok = FUNCTION then do
        let r ← p.parseFunction 0
        pure (.func r.1)
      else p.parsePrimaryExpr
  parseSubexpr limit := do
      let st ← getSt
      let expr ←
        if st.tok.IsUnary then do
          let u ← ptokenNext fuel
          let operand ← p.parseSubexpr UnaryPrecedence
          pure (Expr.unop u (some operand))
        else p.parseSimpleExpr
      p.parseSubLoop limit expr
  parseSubLoop limit expr := do
      let st ← getSt
      if st.tok.IsBinary && limit < st.tok.Precedence.1 then do
        let binopToken ← ptokenNext fuel
        let right ← p.parseSubexpr binopToken.type.Precedence.2
        p.parseSubLoop limit (.binop (some expr) binopToken (some right))
      else pure expr
  parseExpr := p.parseSubexpr 0
  parseExprList := do
      let e ← p.parseExpr
      p.parseExprListLoop [some e] []
  parseExprListLoop items seps := do
      let st ← getSt
      if st.tok = COMMA then do
        let sep ← ptokenNext fuel
        let e ← p.parseExpr
        p.parseExprListLoop (items ++ [some e]) (seps ++ [sep])
      else pure (.mk items seps)
  parseBlockBody term := do
      let block ← p.parseBlock
      let st ← getSt
      if st.tok ≠ term then perror st.off (tokenString term ++ " expected".toList)
      else pure block
  parseDoStmt := do
      let doTok ← pexpectToken fuel DO
      let body ← p.parseBlockBody END
      let endTok ← pexpectToken fuel END
      pure (.doS doTok body endTok)
  parseWhileStmt := do
      let whileTok ← pexpectToken fuel WHILE
      let cond ← p.parseExpr
      let doTok ← pexpectToken fuel DO
      let body ← p.parseBlockBody END
      let endTok ← pexpectToken fuel END
      pure (.whileS whileTok (some cond) doTok body endTok)
  parseRepeatStmt := do
      let repeatTok ← pexpectToken fuel REPEAT
      let body ← p.parseBlockBody UNTIL
      let untilTok ← pexpectToken fuel UNTIL
      let cond ← p.parseExpr
      pure (.repeatS repeatTok body untilTok (some cond))
  parseIfStmt := do
      let ifTok ← pexpectToken fuel IF
      let cond ← p.parseExpr
      let thenTok ← pexpectToken fuel THEN
      let body ← p.parseBlock
      let elseIf ← p.parseElseIfLoop []
      let st ← getSt
      let els ←
        if st.tok = ELSE then do
          let elseTok ← pexpectToken fuel ELSE
          let ebody ← p.parseBlock
          pure (some (ElseClause.mk elseTok ebody))
        else pure none
      let endTok ← pexpectToken fuel END
      pure (.ifS ifTok (some cond) thenTok body elseIf els endTok)
  parseElseIfLoop acc := do
      let st ← getSt
      if st.tok = ELSEIF then do
        let elseifTok ← pexpectToken fuel ELSEIF
        let cond ← p.parseExpr
        let thenTok ← pexpectToken fuel THEN
        let body ← p.parseBlock
        p.parseElseIfLoop (acc ++ [ElseIfClause.mk elseifTok (some cond) thenTok body])
      else pure acc
  parseForStmt := do
      let forToken ← pexpectToken fuel FOR
      let name ← parseName fuel
      let st ← getSt
      if st.tok = ASSIGN then do
        let assignTok ← pexpectToken fuel ASSIGN
        let min ← p.parseExpr
        let maxSep ← pexpectToken fuel COMMA
        let max ← p.parseExpr
        let st2 ← getSt
        let (stepSep, step) ←
          if st2.tok = COMMA then do
            let s ← pexpectToken fuel COMMA
            let e ← p.parseExpr
            pure (s, some e)
          else pure (Tok.zero, none)
        let doTok ← pexpectToken fuel DO
        let body ← p.parseBlockBody END
        let endTok ← pexpectToken fuel END
        pure (.numericFor forToken name assignTok (some min) maxSep (some max)
          stepSep step doTok body endTok)
      else if st.tok = COMMA || st.tok = IN then do
        let names ← p.parseNameListLoop [name] []
        let inTok ← pexpectToken fuel IN
        let iterator ← p.parseExprList
        let doTok ← pexpectToken fuel DO
        let body ← p.parseBlockBody END
        let endTok ← pexpectToken fuel END
        pure (.genericFor forToken names inTok iterator doTok body endTok)
      else perror st.off "'=' or 'in' expected".toList
  parseNameListLoop items seps := do
      let st ← getSt
      if st.tok = COMMA then do
        let sep ← ptokenNext fuel
        let n ← parseName fuel
        p.parseNameListLoop (items ++ [n]) (seps ++ [sep])
      else pure ⟨items, seps⟩
  parseFunction typ := do
      let funcToken ← pexpectToken fuel FUNCTION
      let names ←
        if 0 < typ then do
          let n0 ← parseName fuel
          if 1 < typ then do
            let (items, seps) ← p.parseFuncNameLoop [n0] []
            let st ← getSt
            if st.tok = COLON then do
              let colonTok ← ptokenNext fuel
              let method ← parseName fuel
              pure (FuncNameListN.mk items seps colonTok method)
            else pure (FuncNameListN.mk items seps Tok.zero ⟨Tok.zero⟩)
          else pure (FuncNameListN.mk [n0] [] Tok.zero ⟨Tok.zero⟩)
        else pure FuncNameListN.zero
      let lparen ← pexpectToken fuel LPAREN
      let st ← getSt
      let (params, varargSep, vararg) ←
        if st.tok = NAME then do
          let p0 ← parseName fuel
          let (items, seps, vs, va) ← p.parseParamsLoop [p0] []
          pure (some (NameListN.mk items seps), vs, va)
        else if st.tok = VARARG then do
          let va ← ptokenNext fuel
          pure (none, Tok.zero, va)
        else pure (none, Tok.zero, Tok.zero)
      let rparen ← pexpectToken fuel RPAREN
      let body ← p.parseBlockBody END
      let endTok ← pexpectToken fuel END
      pure (FunctionExprX.mk funcToken lparen params varargSep vararg rparen body endTok,
        names)
  parseFuncNameLoop items seps := do
      let st ← getSt
      if st.tok = DOT then do
        let sep ← ptokenNext fuel
        let n ← parseName fuel
        p.parseFuncNameLoop (items ++ [n]) (seps ++ [sep])
      else pure (items, seps)
  parseParamsLoop items seps := do
      let st ← getSt
      if st.tok = COMMA then do
        let sepToken ← ptokenNext fuel
        let st2 ← getSt
        if st2.tok = VARARG then do
          let va ← ptokenNext fuel
          pure (items, seps, sepToken, va)
        else do
          let n ← parseName fuel
          p.parseParamsLoop (items ++ [n]) (seps ++ [sepToken])
      else pure (items, seps, Tok.zero, Tok.zero)
  parseLocalStmt := do
      let localToken ← pexpectToken fuel LOCAL
      let st ← getSt
      if st.tok = FUNCTION then do
        let r ← p.parseFunction 1
        pure (.localFunc localToken (r.2.items.getD 0 ⟨Tok.zero⟩) r.1)
      else do
        let n0 ← parseName fuel
        let names ← p.parseNameListLoop [n0] []
        let st2 ← getSt
        if st2.tok = ASSIGN then do
          let assignTok ← ptokenNext fuel
          let values ← p.parseExprList
          pure (.localVar localToken names assignTok (some values))
        else pure (.localVar localToken names Tok.zero none)
  parseFunctionStmt := do
      let r ← p.parseFunction 2
      pure (.funcS r.2 r.1)
  parseReturnStmt := do
      let returnTok ← pexpectToken fuel RETURN
      let bf ← pisBlockFollow
      let st ← getSt
      if bf || st.tok = SEMICOLON then pure (.returnS returnTok none)
      else do
        let values ← p.parseExprList
        pure (.returnS returnTok (some values))
  parseBreakStmt := do
      let breakTok ← pexpectToken fuel BREAK
      pure (.breakS breakTok)
  parsePrefixExpr := do
      let st ← getSt
      if st.tok = LPAREN then do
        let lparen ← ptokenNext fuel
        let v ← p.parseExpr
        let rparen ← pexpectToken fuel RPAREN
        pure (.paren lparen (some v) rparen)
      else if st.tok = NAME then do
        let n ← parseName fuel
        pure (.varE n)
      else perror st.off "unexpected symbol".toList
  parseTableCtor := do
      let lbrace ← pexpectToken fuel LBRACE
      let (items, seps) ← p.parseTableLoop [] []
      let rbrace ← pexpectToken fuel RBRACE
      pure (.mk lbrace (.mk items seps) rbrace)
  parseTableLoop items seps := do
      let st ← getSt
      if st.tok ≠ RBRACE then do
        let entry ←
          if st.tok = LBRACK then do
            let lbrack ← ptokenNext fuel
            let key ← p.parseExpr
            let rbrack ← pexpectToken fuel RBRACK
            let assignTok ← pexpectToken fuel ASSIGN
            let value ← p.parseExpr
            pure (Entry.indexEntry lbrack (some key) rbrack assignTok (some value))
          else do
            plookahead fuel
            let st2 ← getSt
            let lookTok := match st2.look with
              | some (_, t, _, _) => t
              | none => INVALID
            if st2.tok = NAME && lookTok = ASSIGN then do
              let n ← parseName fuel
              let assignTok ← pexpectToken fuel ASSIGN
              let value ← p.parseExpr
              pure (Entry.fieldEntry n assignTok (some value))
            else do
              let value ← p.parseExpr
              pure (Entry.valueEntry (some value))
        let items := items ++ [some entry]
        let st3 ← getSt
        if st3.tok = COMMA || st3.tok = SEMICOLON then do
          let sep ← ptokenNext fuel
          p.parseTableLoop items (seps ++ [sep])
        else pure (items, seps)
      else pure (items, seps)
  parseFuncArgs := do
      let st ← getSt
      if st.tok = LPAREN then do
        let lparen ← ptokenNext fuel
        let values ← p.parseArgsLoop none
        let rparen ← pexpectToken fuel RPAREN
        pure (.listArgs lparen values rparen)
      else if st.tok = LBRACE then do
        let t ← p.parseTableCtor
        pure (.tableArg t)
      else if st.tok = STRING || st.tok = LONGSTRING then do
        let s ← parseString fuel
        pure (.stringArg s)
      else perror st.off "function arguments expected".toList
  parseArgsLoop acc := do
      let st ← getSt
      if st.tok ≠ RPAREN then do
        let (items, seps) := acc.getD ([], [])
        let e ← p.parseExpr
        let items := items ++ [some e]
        let st2 ← getSt
        if st2.tok = COMMA then do
          let sep ← ptokenNext fuel
          p.parseArgsLoop (some (items, seps ++ [sep]))
        else pure (some (.mk items seps))
      else pure (acc.map (fun (items, seps) => .mk items seps))
  parsePrimaryExpr := do
      let e ← p.parsePrefixExpr
      p.parsePrimaryLoop e
  parsePrimaryLoop expr := do
      let st ← getSt
      if st.tok = DOT then do
        let dotTok ← ptokenNext fuel
        let n ← parseName fuel
        p.parsePrimaryLoop (.fieldE (some expr) dotTok n)
      else if st.tok = COLON then do
        let colonTok ← ptokenNext fuel
        let n ← parseName fuel
        let args ← p.parseFuncArgs
        p.parsePrimaryLoop (.methodE (some expr) colonTok n (some args))
      else if st.tok = LBRACK then do
        let lbrack ← ptokenNext fuel
        let ix ← p.parseExpr
        let rbrack ← pexpectToken fuel RBRACK
        p.parsePrimaryLoop (.indexE (some expr) lbrack (some ix) rbrack)
      else if st.tok = LBRACE || st.tok = LPAREN then do
        let args ← p.parseFuncArgs
        p.parsePrimaryLoop (.callE (some expr) (some args))
      else pure expr
  parseExprStmt := do
      let expr ← p.parsePrimaryExpr
      if expr.isCall then pure (.callS (some expr))
      else do
        let (items, seps) ← p.parseAssignLeftLoop [some expr] []
        let assignTok ← pexpectToken fuel ASSIGN
        let right ← p.parseExprList
        pure (.assign (.mk items seps) assignTok right)
  parseAssignLeftLoop items seps := do
      let st ← getSt
      if st.tok = COMMA then do
        let sep ← ptokenNext fuel
        let e ← p.parsePrimaryExpr
        if e.isCall then do
          let st2 ← getSt
          perror st2.off "syntax error".toList
        else p.parseAssignLeftLoop (items ++ [some e]) (seps ++ [sep])
      else pure (items, seps)
  parseStmt := do
      let st ← getSt
      if st.tok = DO then do
        let s ← p.parseDoStmt
        pure (s, false)
      else if st.tok = WHILE then do
        let s ← p.parseWhileStmt
        pure (s, false)
      else if st.tok = REPEAT then do
        let s ← p.parseRepeatStmt
        pure (s, false)
      else if st.tok = IF then do
        let s ← p.parseIfStmt
        pure (s, false)
      else if st.tok = FOR then do
        let s ← p.parseForStmt
        pure (s, false)
      else if st.tok = FUNCTION then do
        let s ← p.parseFunctionStmt
        pure (s, false)
      else if st.tok = LOCAL then do
        let s ← p.parseLocalStmt
        pure (s, false)
      else if st.tok = RETURN then do
        let s ← p.parseReturnStmt
        pure (s, true)
      else if st.tok = BREAK then do
        let s ← p.parseBreakStmt
        pure (s, true)
      else do
        let s ← p.parseExprStmt
        pure (s, false)
  parseBlock := p.parseBlockLoop [] []
  parseBlockLoop items seps := do
      let bf ← pisBlockFollow
      if bf then pure (.mk items seps)
      else do
        let (stmt, last) ← p.parseStmt
        let st ← getSt
        let semi ← if st.tok = SEMICOLON then ptokenNext fuel else pure Tok.zero
        let items := items ++ [some stmt]
        let seps := seps ++ [semi]
        if last then pure (.mk items seps)
        else p.parseBlockLoop items seps

/-- The parser at a given amount of fuel. -/
def parserAt (fuel : Nat) : ParserPack :=
  match fuel with
  | 0 => parserPack0
  | n + 1 => parserF n (parserAt n)

/-- parser.go: `parser.parseSimpleExpr`. -/
def parseSimpleExpr (fuelArg : Nat) : PM Expr :=
  (parserAt fuelArg).parseSimpleExpr

/-- parser.go: `parser.parseSubexpr` (the Pratt loop is
`parseSubLoop`). The source's dead `expr == nil` check cannot fire: every
branch of `parseSimpleExpr` yields a node or fails. -/
def parseSubexpr (fuelArg : Nat) (limit : Nat) : PM Expr :=
  (parserAt fuelArg).parseSubexpr limit

/-- parser.go: the binary-operator loop of `parseSubexpr`:
`for p.tok.IsBinary() && p.tok.Precedence()[0] > limit`. -/
def parseSubLoop (fuelArg : Nat) (limit : Nat) (expr : Expr) : PM Expr :=
  (parserAt fuelArg).parseSubLoop limit expr

/-- parser.go: `parser.parseExpr`. -/
def parseExpr (fuelArg : Nat) : PM Expr :=
  (parserAt fuelArg).parseExpr

/-- parser.go: `parser.parseExprList`. -/
def parseExprList (fuelArg : Nat) : PM ExprList :=
  (parserAt fuelArg).parseExprList

def parseExprListLoop (fuelArg : Nat) (items : List (Option Expr)) (seps : List Tok) : PM ExprList :=
  (parserAt fuelArg).parseExprListLoop items seps

/-- parser.go: `parser.parseBlockBody`. -/
def parseBlockBody (fuelArg : Nat) (term : TokType) : PM Block :=
  (parserAt fuelArg).parseBlockBody term

/-- parser.go: `parser.parseDoStmt`. -/
def parseDoStmt (fuelArg : Nat) : PM Stmt :=
  (parserAt fuelArg).parseDoStmt

/-- parser.go: `parser.parseWhileStmt`. -/
def parseWhileStmt (fuelArg : Nat) : PM Stmt :=
  (parserAt fuelArg).parseWhileStmt

/-- parser.go: `parser.parseRepeatStmt`. -/
def parseRepeatStmt (fuelArg : Nat) : PM Stmt :=
  (parserAt fuelArg).parseRepeatStmt

/-- parser.go: `parser.parseIfStmt`. -/
def parseIfStmt (fuelArg : Nat) : PM Stmt :=
  (parserAt fuelArg).parseIfStmt

def parseElseIfLoop (fuelArg : Nat) (acc : List ElseIfClause) : PM (List ElseIfClause) :=
  (parserAt fuelArg).parseElseIfLoop acc

/-- parser.go: `parser.parseForStmt`. -/
def parseForStmt (fuelArg : Nat) : PM Stmt :=
  (parserAt fuelArg).parseForStmt

/-- The `for p.tok == token.COMMA` name-collection loop used by the
generic-for and local-variable statements. -/
def parseNameListLoop (fuelArg : Nat) (items : List NameN) (seps : List Tok) : PM NameListN :=
  (parserAt fuelArg).parseNameListLoop items seps

/-- parser.go: `parser.parseFunction` — `typ` is funcExpr/funcLocal/
funcStmt (0/1/2); returns the function expression and the name list. -/
def parseFunction (fuelArg : Nat) (typ : Nat) : PM (FunctionExprX × FuncNameListN) :=
  (parserAt fuelArg).parseFunction typ

/-- The dot-separated name loop of `parseFunction` (funcStmt form). -/
def parseFuncNameLoop (fuelArg : Nat) (items : List NameN) (seps : List Tok) : PM (List NameN × List Tok) :=
  (parserAt fuelArg).parseFuncNameLoop items seps

/-- The parameter loop of `parseFunction`: commas followed by either a
vararg (recorded with its separator, ending the list) or another name. -/
def parseParamsLoop (fuelArg : Nat) (items : List NameN) (seps : List Tok) : PM (List NameN × List Tok × Tok × Tok) :=
  (parserAt fuelArg).parseParamsLoop items seps

/-- parser.go: `parser.parseLocalStmt`. -/
def parseLocalStmt (fuelArg : Nat) : PM Stmt :=
  (parserAt fuelArg).parseLocalStmt

/-- parser.go: `parser.parseFunctionStmt`. -/
def parseFunctionStmt (fuelArg : Nat) : PM Stmt :=
  (parserAt fuelArg).parseFunctionStmt

/-- parser.go: `parser.parseReturnStmt`. -/
def parseReturnStmt (fuelArg : Nat) : PM Stmt :=
  (parserAt fuelArg).parseReturnStmt

/-- parser.go: `parser.parseBreakStmt`. -/
def parseBreakStmt (fuelArg : Nat) : PM Stmt :=
  (parserAt fuelArg).parseBreakStmt

/-- parser.go: `parser.parsePrefixExpr`. -/
def parsePrefixExpr (fuelArg : Nat) : PM Expr :=
  (parserAt fuelArg).parsePrefixExpr

/-- parser.go: `parser.parseTableCtor`. -/
def parseTableCtor (fuelArg : Nat) : PM TableCtor :=
  (parserAt fuelArg).parseTableCtor

/-- The entry loop of `parseTableCtor`: runs while the current token is
not `}`; one entry (index, field — decided with the one-token lookahead —
or value), then an optional `,`/`;` separator, else break. -/
def parseTableLoop (fuelArg : Nat) (items : List (Option Entry)) (seps : List Tok) : PM (List (Option Entry) × List Tok) :=
  (parserAt fuelArg).parseTableLoop items seps

/-- parser.go: `parser.parseFuncArgs`. -/
def parseFuncArgs (fuelArg : Nat) : PM Args :=
  (parserAt fuelArg).parseFuncArgs

/-- The argument loop of `parseFuncArgs`: runs while the current token is
not `)`; the list is created on first use (`nil` when no arguments). -/
def parseArgsLoop (fuelArg : Nat) (acc : Option (List (Option Expr) × List Tok)) : PM (Option ExprList) :=
  (parserAt fuelArg).parseArgsLoop acc

/-- parser.go: `parser.parsePrimaryExpr` (the suffix loop). -/
def parsePrimaryExpr (fuelArg : Nat) : PM Expr :=
  (parserAt fuelArg).parsePrimaryExpr

def parsePrimaryLoop (fuelArg : Nat) (expr : Expr) : PM Expr :=
  (parserAt fuelArg).parsePrimaryLoop expr

/-- parser.go: `parser.parseExprStmt`. -/
def parseExprStmt (fuelArg : Nat) : PM Stmt :=
  (parserAt fuelArg).parseExprStmt

/-- The left-hand-side loop of `parseExprStmt`: further primary
expressions after commas; method/call expressions are a syntax error. -/
def parseAssignLeftLoop (fuelArg : Nat) (items : List (Option Expr)) (seps : List Tok) : PM (List (Option Expr) × List Tok) :=
  (parserAt fuelArg).parseAssignLeftLoop items seps

/-- parser.go: `parser.parseStmt` — returns the statement and whether it
must be the last one of the block. -/
def parseStmt (fuelArg : Nat) : PM (Stmt × Bool) :=
  (parserAt fuelArg).parseStmt

/-- parser.go: `parser.parseBlock`. -/
def parseBlock (fuelArg : Nat) : PM Block :=
  (parserAt fuelArg).parseBlock

def parseBlockLoop (fuelArg : Nat) (items : List (Option Stmt)) (seps : List Tok) : PM Block :=
  (parserAt fuelArg).parseBlockLoop items seps

/-- parser.go: `parser.parseFile` — the file node (its `Info` is the
shared file descriptor; here its final state is attached by
`ParseFileE`). -/
def parseFileBody (fuel : Nat) : PM (Block × Tok) := do
  let body ← parseBlock fuel
  let eofTok ← ptokenNext fuel
  pure (body, eofTok)

/-- parser.go: `ParseFile` (src given as bytes, mode None). Returns the
file node, the returned error (`p.err`, the last report), whether the
parse ended in a bailout, and the final parser state; `none` when the
embedding's fuel runs out. On bailout the deferred recover returns
`&ast.File{Info: info}` — the zero file node carrying only the file
info. -/
def ParseFileE (fuel : Nat) (fname src : List Char) :
    Option (FileN × Option ScanErr × Bool × PState) :=
  let st0 : PState := ⟨scanInit src, 0, INVALID, [], [], none⟩
  match pnext fuel st0 with
  | none => none
  | some (.bail st) =>
      some (⟨⟨fname, st.scan.lines⟩, .mk [] [], Tok.zero⟩, st.scan.errs.getLast?, true, st)
  | some (.ok _ st) =>
      match parseFileBody fuel st with
      | none => none
      | some (.bail st) =>
          some (⟨⟨fname, st.scan.lines⟩, .mk [] [], Tok.zero⟩, st.scan.errs.getLast?, true, st)
      | some (.ok (body, eofTok) st) =>
          some (⟨⟨fname, st.scan.lines⟩, body, eofTok⟩, st.scan.errs.getLast?, false, st)

/-! ### extend/scope.go: the scope builder. Scopes and variables live in
arenas and are referred to by index (the Go code uses pointers). The
`VariableMap`, keyed in Go by token pointer identity, is keyed here by
the token's byte offset, which identifies a token uniquely in a parsed
tree. `ScopeMap` (node to scope) is not needed by any claim and is
dropped. -/

/-- A scope item: a NAME token (by offset) or a child scope (by index) —
scope.go's `Items []interface{}`. -/
inductive ScopeItem where
  | tok (off : Nat)
  | scope (id : Nat)
deriving DecidableEq, Repr

/-- extend/scope.go: `VariableType`. -/
def LocalVar : Nat := 1
def GlobalVar : Nat := 2

/-- extend/scope.go: `Variable`. -/
structure VarRec where
  vtype : Nat
  name : List Char
  references : List Nat
  scopes : List Nat
  positions : List Nat
  lifeStart : Nat
  lifeEnd : Nat
  scopeEnd : Nat
deriving DecidableEq, Repr

/-- extend/scope.go: `Variable.VisiblityOverlapsWith`. -/
def VarRec.VisiblityOverlapsWith (v w : VarRec) : Bool :=
  w.lifeStart ≤ v.scopeEnd && v.lifeStart ≤ w.scopeEnd

/-- extend/scope.go: `Scope`. -/
structure ScopeRec where
  parent : Option Nat
  children : List Nat
  varsIn : List Nat
  items : List ScopeItem
  startP : Nat
  endP : Nat
deriving DecidableEq, Repr

/-- extend/scope.go: `scopeParser` plus the `FileScope` under
construction. -/
structure SPState where
  scopes : List ScopeRec
  vars : List VarRec
  globals : List Nat
  varMap : List (Nat × Nat)
  currentScope : Option Nat
  position : Nat
deriving DecidableEq, Repr

def SPState.empty : SPState := ⟨[], [], [], [], none, 0⟩

/-- Look up a scope record (arena read). -/
def SPState.scopeAt (st : SPState) (i : Nat) : ScopeRec :=
  st.scopes.getD i ⟨none, [], [], [], 0, 0⟩

/-- Look up a variable record (arena read). -/
def SPState.varAt (st : SPState) (i : Nat) : VarRec :=
  st.vars.getD i ⟨0, [], [], [], [], 0, 0, 0⟩

/-- Arena write for a scope. -/
def SPState.setScope (st : SPState) (i : Nat) (s : ScopeRec) : SPState :=
  { st with scopes := st.scopes.set i s }

/-- Arena write for a variable. -/
def SPState.setVar (st : SPState) (i : Nat) (v : VarRec) : SPState :=
  { st with vars := st.vars.set i v }

/-- `VariableMap` lookup (token offset to variable index). -/
def SPState.varOfTok (st : SPState) (off : Nat) : Option Nat :=
  (st.varMap.find? (fun p => p.1 = off)).map (fun p => p.2)

/-- extend/scope.go: `scopeParser.mark`. -/
def SPState.mark (st : SPState) : Nat × SPState :=
  (st.position + 1, { st with position := st.position + 1 })

/-- extend/scope.go: `NewScope` + `scopeParser.openScope` — create an
inner scope, register it in the parent's children and items, mark its
start, and make it current. -/
def SPState.openScope (st : SPState) : SPState :=
  let id := st.scopes.length
  let st := { st with scopes := st.scopes ++ [({ parent := st.currentScope, children := [], varsIn := [], items := [], startP := 0, endP := 0 } : ScopeRec)] }
  let st :=
    match st.currentScope with
    | none => st
    | some p =>
        let ps := st.scopeAt p
        st.setScope p { ps with children := ps.children ++ [id],
                                items := ps.items ++ [ScopeItem.scope id] }
  let (pos, st) := st.mark
  let st := st.setScope id { st.scopeAt id with startP := pos }
  { st with currentScope := some id }

/-- extend/scope.go: `scopeParser.closeScope`. -/
def SPState.closeScope (st : SPState) : SPState :=
  match st.currentScope with
  | none => st
  | some c =>
      let (pos, st) := st.mark
      let cs := st.scopeAt c
      let st := st.setScope c { cs with endP := pos }
      let st := cs.varsIn.foldl
        (fun st vid => st.setVar vid { st.varAt vid with scopeEnd := pos }) st
      { st with currentScope := (st.scopeAt c).parent }

/-- extend/scope.go: `scopeParser.addVariableName`. -/
def SPState.addVariableName (st : SPState) (vid : Nat) (tok : Tok) : SPState :=
  let cur := st.currentScope.getD 0
  let (pos, st) := st.mark
  let v := st.varAt vid
  let st := st.setVar vid { v with references := v.references ++ [tok.offset],
                                   scopes := v.scopes ++ [cur],
                                   lifeEnd := pos,
                                   positions := v.positions ++ [pos] }
  let cs := st.scopeAt cur
  let st := st.setScope cur { cs with items := cs.items ++ [ScopeItem.tok tok.offset] }
  { st with varMap := st.varMap ++ [(tok.offset, vid)] }

/-- extend/scope.go: `scopeParser.newVariable`. -/
def SPState.newVariable (st : SPState) (tok : Tok) : Nat × SPState :=
  let (pos, st) := st.mark
  let vid := st.vars.length
  let st := { st with vars := st.vars ++ [({ vtype := 0, name := tok.bytes, references := [], scopes := [], positions := [], lifeStart := pos, lifeEnd := 0, scopeEnd := 0 } : VarRec)] }
  (vid, st.addVariableName vid tok)

/-- extend/scope.go: `scopeParser.addLocalVar`. -/
def SPState.addLocalVar (st : SPState) (tok : Tok) : SPState :=
  let (vid, st) := st.newVariable tok
  let st := st.setVar vid { st.varAt vid with vtype := LocalVar }
  let cur := st.currentScope.getD 0
  let cs := st.scopeAt cur
  st.setScope cur { cs with varsIn := cs.varsIn ++ [vid] }

/-- extend/scope.go: `scopeParser.getLocalVar` — innermost scope first,
and inside a scope the variables in reverse declaration order (so
shadowing resolves to the most recent declaration). Recursion on the
parent chain is bounded by `fuel`. -/
def SPState.getLocalVar (st : SPState) (fuel : Nat) (scope : Option Nat)
    (name : List Char) : Option Nat :=
  match fuel, scope with
  | 0, _ => none
  | _, none => none
  | fuel + 1, some s =>
      match ((st.scopeAt s).varsIn.reverse).find?
          (fun vid => (st.varAt vid).name = name) with
      | some vid => some vid
      | none => st.getLocalVar fuel (st.scopeAt s).parent name

/-- extend/scope.go: `scopeParser.addGlobalVar`. -/
def SPState.addGlobalVar (st : SPState) (tok : Tok) : SPState :=
  match st.globals.find? (fun g => (st.varAt g).name = tok.bytes) with
  | some g => st.addVariableName g tok
  | none =>
      let (vid, st) := st.newVariable tok
      let st := st.setVar vid { st.varAt vid with vtype := GlobalVar }
      { st with globals := st.globals ++ [vid] }

/-- extend/scope.go: `scopeParser.referenceVariable`. -/
def SPState.referenceVariable (st : SPState) (tok : Tok) : SPState :=
  match st.getLocalVar (st.scopes.length + 1) st.currentScope tok.bytes with
  | some vid => st.addVariableName vid tok
  | none => st.addGlobalVar tok

/-! extend/scope.go: `scopeParser.Visit`, driven by `tree.Walk`. Node
types matched by the `switch` get their special handling (and stop the
generic walk by returning nil); all other node types fall to the generic
child traversal of `tree.Walk`. -/

mutual

/-- The generic `tree.Walk` child traversal for expressions, combined
with the `scopeParser.Visit` special cases (`VariableExpr`,
`FunctionExpr`). -/
def svExpr (st : SPState) : Expr → SPState
  | .number _ => st
  | .strE _ => st
  | .nilE _ => st
  | .boolE _ => st
  | .varargE _ => st
  | .unop _ operand => svOptExpr st operand
  | .binop l _ r => svOptExpr (svOptExpr st l) r
  | .paren _ v _ => svOptExpr st v
  | .varE n => st.referenceVariable n.token
  | .table t => svTable st t
  | .func f => svFunction st f
  | .fieldE v _ _ => svOptExpr st v
  | .indexE v _ ix _ => svOptExpr (svOptExpr st v) ix
  | .methodE v _ _ args => svOptArgs (svOptExpr st v) args
  | .callE v args => svOptArgs (svOptExpr st v) args

def svOptExpr (st : SPState) : Option Expr → SPState
  | none => st
  | some e => svExpr st e

/-- scope.go `FunctionExpr` case: open a scope, walk the parameters
(adding local variables) and the body, close. -/
def svFunction (st : SPState) : FunctionExprX → SPState
  | .mk _ _ params _ _ _ body _ =>
      let st := st.openScope
      let st := match params with
        | some l => svNameList st l
        | none => st
      let st := svBlock st body
      st.closeScope

def svTable (st : SPState) : TableCtor → SPState
  | .mk _ entries _ => svEntryList st entries

def svEntryList (st : SPState) : EntryList → SPState
  | .mk items _ => svEntryItems st items

def svEntryItems (st : SPState) : List (Option Entry) → SPState
  | [] => st
  | x :: xs => svEntryItems (svOptEntry st x) xs

def svOptEntry (st : SPState) : Option Entry → SPState
  | none => st
  | some e => svEntry st e

def svEntry (st : SPState) : Entry → SPState
  | .indexEntry _ k _ _ v => svOptExpr (svOptExpr st k) v
  | .fieldEntry _ _ v => svOptExpr st v
  | .valueEntry v => svOptExpr st v

def svArgs (st : SPState) : Args → SPState
  | .listArgs _ values _ => svOptExprList st values
  | .tableArg t => svTable st t
  | .stringArg _ => st

def svOptArgs (st : SPState) : Option Args → SPState
  | none => st
  | some a => svArgs st a

def svExprList (st : SPState) : ExprList → SPState
  | .mk items _ => svExprItems st items

def svExprItems (st : SPState) : List (Option Expr) → SPState
  | [] => st
  | x :: xs => svExprItems (svOptExpr st x) xs

def svOptExprList (st : SPState) : Option ExprList → SPState
  | none => st
  | some l => svExprList st l

def svBlock (st : SPState) : Block → SPState
  | .mk items _ => svStmtItems st items

def svStmtItems (st : SPState) : List (Option Stmt) → SPState
  | [] => st
  | x :: xs => svStmtItems (svOptStmt st x) xs

def svOptStmt (st : SPState) : Option Stmt → SPState
  | none => st
  | some s => svStmt st s

/-- scope.go: the statement cases of `scopeParser.Visit` (lines 256-357),
with the generic traversal for `AssignStmt`, `CallStmt`, `BreakStmt` and
`ReturnStmt`. -/
def svStmt (st : SPState) : Stmt → SPState
  | .doS _ body _ =>
      (svBlock st.openScope body).closeScope
  | .assign l _ r => svExprList (svExprList st l) r
  | .callS c => svOptExpr st c
  | .ifS _ cond _ body elseIf els _ =>
      let st := st.openScope
      let st := svOptExpr st cond
      let st := svBlock st body
      let st := svElseIfs st elseIf
      let st := match els with
        | some (.mk _ ebody) => svBlock st.closeScope.openScope ebody
        | none => st
      st.closeScope
  | .numericFor _ name _ min _ max _ step _ body _ =>
      let st := st.openScope
      let st := svOptExpr st min
      let st := svOptExpr st max
      let st := svOptExpr st step
      let st := st.closeScope
      let st := st.openScope
      let st := st.addLocalVar name.token
      let st := svBlock st body
      st.closeScope
  | .genericFor _ names _ iterator _ body _ =>
      let st := st.openScope
      let st := svExprList st iterator
      let st := st.closeScope
      let st := st.openScope
      let st := svNameList st names
      let st := svBlock st body
      st.closeScope
  | .whileS _ cond _ body _ =>
      (svBlock (svOptExpr st.openScope cond) body).closeScope
  | .repeatS _ body _ cond =>
      (svOptExpr (svBlock st.openScope body) cond).closeScope
  | .localVar _ names _ values =>
      let st := match values with
        | some l => svExprList st l
        | none => st
      svNameList st names
  | .localFunc _ name fn =>
      svFunction (st.addLocalVar name.token) fn
  | .funcS name fn =>
      let st := match name.items with
        | n0 :: _ => st.referenceVariable n0.token
        | [] => st
      svFunction st fn
  | .breakS _ => st
  | .returnS _ values => svOptExprList st values

/-- scope.go `NameList` case: every item is added as a local variable. -/
def svNameList (st : SPState) (l : NameListN) : SPState :=
  svNameItems st l.items

def svNameItems (st : SPState) : List NameN → SPState
  | [] => st
  | n :: ns => svNameItems (st.addLocalVar n.token) ns

/-- scope.go: the elseif-clause handling inside the `IfStmt` case: close
the previous arm's scope, open a new one, walk the clause. -/
def svElseIfs (st : SPState) : List ElseIfClause → SPState
  | [] => st
  | .mk _ cond _ body :: rest =>
      let st := st.closeScope
      let st := st.openScope
      let st := svOptExpr st cond
      let st := svBlock st body
      svElseIfs st rest

end

/-- extend/scope.go: `BuildFileScope` — open the file scope (index 0, the
root), walk the body, close. -/
def BuildFileScope (f : FileN) : SPState :=
  ((svBlock SPState.empty.openScope f.body)).closeScope

/-! ### format/minify.go: the index-assignment passes of `Minify`.
`usedIndexes` maps `(scope, index)` to the occupying variable (or to the
keyword marker, Go `nil`, embedded as `none`); `varIndexes` maps a
variable to its assigned index. Both are association lists where a
prepended entry overwrites. Recursion through the scope arena is bounded
by `fuel`. -/

abbrev UsedMap := List ((Nat × Int) × Option Nat)
abbrev VarIdxMap := List (Nat × Int)

def uset (m : UsedMap) (k : Nat × Int) (v : Option Nat) : UsedMap := (k, v) :: m

def uget (m : UsedMap) (k : Nat × Int) : Option (Option Nat) :=
  (m.find? (fun p => p.1 = k)).map (fun p => p.2)

def vset (m : VarIdxMap) (k : Nat) (v : Int) : VarIdxMap := (k, v) :: m

def vget (m : VarIdxMap) (k : Nat) : Option Int :=
  (m.find? (fun p => p.1 = k)).map (fun p => p.2)

/-- format/minify.go: the scopes reached by `descendItems` — every scope
item in the list, recursively (note: a scope's own identifier is produced
only when it occurs as an item; the list's owner is not produced). -/
def collectScopes (st : SPState) : Nat → List ScopeItem → List Nat
  | _, [] => []
  | 0, _ => []
  | fuel + 1, .tok _ :: rest => collectScopes st fuel rest
  | fuel + 1, .scope id :: rest =>
      (id :: collectScopes st fuel (st.scopeAt id).items)
        ++ collectScopes st fuel rest

/-- format/minify.go: `scopeContains` — whether the item list (of a
scope) contains, directly or in a nested scope, a token mapped to the
variable. -/
def scopeContainsItems (st : SPState) : Nat → List ScopeItem → Nat → Bool
  | _, [], _ => false
  | 0, _, _ => false
  | fuel + 1, .tok off :: rest, vid =>
      st.varOfTok off = some vid || scopeContainsItems st fuel rest vid
  | fuel + 1, .scope id :: rest, vid =>
      scopeContainsItems st fuel (st.scopeAt id).items vid
        || scopeContainsItems st fuel rest vid

/-- format/minify.go lines 177-194: the keyword pass — for every valid
keyword type whose spelling has an identifier index, mark that index used
in every scope that `descendItems(fileScope.Root.Items, …)` reaches. -/
def minifyKeywordPass (st : SPState) (fuel : Nat) (rootItems : List ScopeItem) : UsedMap :=
  ((List.range valid_end).filter (fun t => TokType.IsValid t && TokType.IsKeyword t)).foldl
    (fun used t =>
      let index := IdentIndex (tokenString t)
      if index < 0 then used
      else (collectScopes st fuel rootItems).foldl
        (fun used s => uset used (s, index) none) used)
    []

/-- format/minify.go lines 196-212: the globals pass — each global takes
the index of its own name; that index is marked used in the scope of its
first reference and in every reached scope that contains a reference to
it. -/
def minifyGlobalPass (st : SPState) (fuel : Nat) (rootItems : List ScopeItem)
    (used0 : UsedMap) : UsedMap × VarIdxMap :=
  st.globals.foldl
    (fun (acc : UsedMap × VarIdxMap) g =>
      let (used, varIdx) := acc
      let index := IdentIndex (st.varAt g).name
      let varIdx := vset varIdx g index
      let used := uset used ((st.varAt g).scopes.getD 0 0, index) (some g)
      let used := (collectScopes st fuel rootItems).foldl
        (fun used s =>
          if scopeContainsItems st fuel (st.scopeAt s).items g
          then uset used (s, index) (some g) else used) used
      (used, varIdx))
    (used0, [])

/-- format/minify.go lines 230-239: the index-search loop for a local
variable (`for ; ; index++`), bounded by fuel. -/
def findFreeIndex (st : SPState) (used : UsedMap) (v : VarRec) (s0 : Nat) :
    Nat → Int → Option Int
  | 0, _ => none
  | rounds + 1, index =>
      match uget used (s0, index) with
      | none => some index
      | some occ =>
          match occ with
          | none => findFreeIndex st used v s0 rounds (index + 1)
          | some ow =>
              if !(v.VisiblityOverlapsWith (st.varAt ow)) then some index
              else findFreeIndex st used v s0 rounds (index + 1)

/-- format/minify.go lines 214-252: the locals pass (`descendItems` over
the root items). For a token item: resolve its variable; skip non-locals
and already-assigned variables; otherwise find the smallest usable index
in the variable's first scope, record it, and mark it used in that scope
and in every later-reached scope containing a reference. For a scope
item: descend. -/
def minifyLocalsPass (st : SPState) : Nat → List ScopeItem →
    UsedMap × VarIdxMap → UsedMap × VarIdxMap
  | _, [], acc => acc
  | 0, _, acc => acc
  | fuel + 1, .tok off :: rest, acc =>
      let acc :=
        match st.varOfTok off with
        | none => acc
        | some vid =>
            let v := st.varAt vid
            if v.vtype ≠ LocalVar then acc
            else if (vget acc.2 vid).isSome then acc
            else
              match findFreeIndex st acc.1 v (v.scopes.getD 0 0) fuel 0 with
              | none => acc
              | some index =>
                  let varIdx := vset acc.2 vid index
                  let used := uset acc.1 ((v.scopes.getD 0 0), index) (some vid)
                  let used := (collectScopes st fuel rest).foldl
                    (fun used s =>
                      if scopeContainsItems st fuel (st.scopeAt s).items vid
                      then uset used (s, index) (some vid) else used) used
                  (used, varIdx)
      minifyLocalsPass st fuel rest acc
  | fuel + 1, .scope id :: rest, acc =>
      let acc := minifyLocalsPass st fuel (st.scopeAt id).items acc
      minifyLocalsPass st fuel rest acc

/-- format/minify.go: the index assignment computed by `Minify` for the
parse tree's variables: build the file scope, run the keyword, global and
local passes over the root items, and return the final maps. A local
variable `v` is then renamed to `GenerateIdent(varIndexes[v])`. -/
def minifyIndexes (f : FileN) (fuel : Nat) : SPState × UsedMap × VarIdxMap :=
  let st := BuildFileScope f
  let rootItems := (st.scopeAt 0).items
  let used := minifyKeywordPass st fuel rootItems
  let (used, varIdxG) := minifyGlobalPass st fuel rootItems used
  let (used, varIdx) := minifyLocalsPass st fuel rootItems (used, varIdxG)
  (st, used, varIdx)

/-! ### ast/adjoin.go: `adjoinFixer.VisitToken` — the per-token step of
the fixer. `prevType` is the type of the previously visited valid token
(tracked through the walked prefixes). -/

def charOfSep (c : Int) : Char := Char.ofNat c.toNat

/-- The prefix loop of `VisitToken`: when a separator is required before
prefix `i`, a SPACE prefix gets the byte prepended, any other prefix gets
a one-byte SPACE prefix inserted before it; the previous type then
becomes that prefix's type. -/
def adjoinPres (prevType : TokType) : List Pre → List Pre
  | [] => []
  | p :: rest =>
      let c := getSep prevType p.type p.bytes
      if 0 ≤ c then
        if p.type = SPACE then
          ⟨SPACE, charOfSep c :: p.bytes⟩ :: adjoinPres SPACE rest
        else
          ⟨SPACE, [charOfSep c]⟩ :: p :: adjoinPres p.type rest
      else p :: adjoinPres p.type rest

/-- ast/adjoin.go: `adjoinFixer.VisitToken` on a token, given the
previous valid token's type: invalid tokens are skipped; otherwise the
prefixes are fixed, and then a separator for the token itself is
appended to a trailing SPACE prefix or added as a new SPACE prefix. -/
def adjoinVisit (prevType : TokType) (tok : Tok) : Tok :=
  if !tok.type.IsValid then tok
  else
    let pres := adjoinPres prevType tok.pre
    let prevType2 := ((tok.pre.getLast?).map Pre.type).getD prevType
    let c := getSep prevType2 tok.type tok.bytes
    if 0 ≤ c then
      match pres.getLast? with
      | some p =>
          if p.type = SPACE then
            { tok with pre := pres.dropLast ++ [⟨SPACE, p.bytes ++ [charOfSep c]⟩] }
          else { tok with pre := pres ++ [⟨SPACE, [charOfSep c]⟩] }
      | none => { tok with pre := pres ++ [⟨SPACE, [charOfSep c]⟩] }
    else { tok with pre := pres }

/-! ### Concrete inputs used to settle the claims. Each is a source text
together with its parse (with ample fuel; a failed parse yields a
recognizable dummy so that the theorems below pin the actual values). -/

def dummyFile : FileN := ⟨⟨[], []⟩, .mk [] [], Tok.zero⟩

/-- The parse of `"if x then end"` (claim C6). -/
def c6file : FileN :=
  match ParseFileE 64 "f".toList "if x then end".toList with
  | some (f, _, _, _) => f
  | none => dummyFile

/-- The parse of `"function a:m() end"` (claim C1). -/
def c1file : FileN :=
  match ParseFileE 64 "f".toList "function a:m() end".toList with
  | some (f, _, _, _) => f
  | none => dummyFile

/-- The parse of `"-- a\nlocal x = 1\n"` (claim C4). -/
def c4file : FileN :=
  match ParseFileE 64 "f".toList "-- a\nlocal x = 1\n".toList with
  | some (f, _, _, _) => f
  | none => dummyFile

/-- The parse of `"local x = 1 do a(x) end"` (claim C2). -/
def c2file : FileN :=
  match ParseFileE 64 "f".toList "local x = 1 do a(x) end".toList with
  | some (f, _, _, _) => f
  | none => dummyFile

/-- The positions of the `\n` bytes of a byte list, starting at `pos`. -/
def nlPos : List Char → Nat → List Nat
  | [], _ => []
  | c :: rest, pos =>
      (if c = '\n' then [pos] else []) ++ nlPos rest (pos + 1)

/-- The parse of `"local a, b"` (claim C9) and its name list. -/
def c9file : FileN :=
  match ParseFileE 64 "f".toList "local a, b".toList with
  | some (f, _, _, _) => f
  | none => dummyFile

def c9list : NameListN :=
  match c9file.body with
  | .mk [some (.localVar _ names _ _)] _ => names
  | _ => ⟨[], []⟩

/-- The source of claim C7's counterexample: an unfinished string (a
lexical error, reported first) followed by a structural violation. -/
def c7src : List Char := "x = \"a\ny =".toList

def c7run : Option (FileN × Option ScanErr × Bool × PState) :=
  ParseFileE 64 "f".toList c7src

/-- The scope chain from a scope outward through its parents (innermost
first), as walked by `getLocalVar`. -/
def scopeChain (st : SPState) : Nat → Option Nat → List Nat
  | 0, _ => []
  | _, none => []
  | fuel + 1, some s => s :: scopeChain st fuel (st.scopeAt s).parent

/-- Projections on a `ParseFileE` result (the dummy values are never hit
by the theorems below, which pin the whole result first). -/
def parseErrOf (r : Option (FileN × Option ScanErr × Bool × PState)) : Option ScanErr :=
  match r with
  | some (_, e, _, _) => e
  | none => some ⟨999999, ['?']⟩

def parseBailOf (r : Option (FileN × Option ScanErr × Bool × PState)) : Bool :=
  match r with
  | some (_, _, b, _) => b
  | none => true

def parseErrsOf (r : Option (FileN × Option ScanErr × Bool × PState)) : List ScanErr :=
  match r with
  | some (_, _, _, st) => st.scan.errs
  | none => []

def parseFileOf (r : Option (FileN × Option ScanErr × Bool × PState)) : FileN :=
  match r with
  | some (f, _, _, _) => f
  | none => dummyFile


/-- The tree of `c1file` (the parse of `"function a:m() end"`) spelled
out: the proof below checks `c1file = c1tree` definitionally, and the
emission facts are then evaluated on this literal. -/
def c1tree : FileN :=
  FileN.mk (FileInfo.mk ['f'] [0])
    (Block.mk
      [(some (Stmt.funcS
        (FuncNameListN.mk [(NameN.mk (Tok.mk 10 [Pre.mk 4 [' ']] 9 ['a']))] []
          (Tok.mk 24 [] 10 [':']) (NameN.mk (Tok.mk 10 [] 11 ['m'])))
        (FunctionExprX.mk (Tok.mk 65 [] 0 ['f', 'u', 'n', 'c', 't', 'i', 'o', 'n'])
          (Tok.mk 28 [] 12 ['(']) none (Tok.mk 0 [] 0 []) (Tok.mk 0 [] 0 [])
          (Tok.mk 29 [] 13 [')']) (Block.mk [] [])
          (Tok.mk 54 [Pre.mk 4 [' ']] 15 ['e', 'n', 'd']))))]
      [(Tok.mk 0 [] 0 [])])
    (Tok.mk 2 [] 18 [])

/-- The tree of `c4file` (the parse of `"-- a\nlocal x = 1\n"`) spelled
out, for the same staging. -/
def c4tree : FileN :=
  FileN.mk (FileInfo.mk ['f'] [0, 5, 17])
    (Block.mk
      [(some (Stmt.localVar
        (Tok.mk 64 [Pre.mk 6 ['-', '-', ' ', 'a'], Pre.mk 4 ['\n']] 5
          ['l', 'o', 'c', 'a', 'l'])
        (NameListN.mk [(NameN.mk (Tok.mk 10 [Pre.mk 4 [' ']] 11 ['x']))] [])
        (Tok.mk 21 [Pre.mk 4 [' ']] 13 ['='])
        (some (ExprList.mk
          [(some (Expr.number (Tok.mk 12 [Pre.mk 4 [' ']] 15 ['1'])))] []))))]
      [(Tok.mk 0 [] 0 [])])
    (Tok.mk 2 [Pre.mk 4 ['\n']] 17 [])

/-- The tree of `c2file` (the parse of `"local x = 1 do a(x) end"`)
spelled out, for the same staging. -/
def c2tree : FileN :=
  FileN.mk (FileInfo.mk ['f'] [0])
    (Block.mk
      [(some (Stmt.localVar (Tok.mk 64 [] 0 ['l', 'o', 'c', 'a', 'l'])
        (NameListN.mk [(NameN.mk (Tok.mk 10 [Pre.mk 4 [' ']] 6 ['x']))] [])
        (Tok.mk 21 [Pre.mk 4 [' ']] 8 ['='])
        (some (ExprList.mk
          [(some (Expr.number (Tok.mk 12 [Pre.mk 4 [' ']] 10 ['1'])))] [])))),
       (some (Stmt.doS (Tok.mk 53 [Pre.mk 4 [' ']] 12 ['d', 'o'])
        (Block.mk
          [(some (Stmt.callS (some (Expr.callE
            (some (Expr.varE (NameN.mk (Tok.mk 10 [Pre.mk 4 [' ']] 15 ['a']))))
            (some (Args.listArgs (Tok.mk 28 [] 16 ['('])
              (some (ExprList.mk
                [(some (Expr.varE (NameN.mk (Tok.mk 10 [] 17 ['x']))))] []))
              (Tok.mk 29 [] 18 [')'])))))))]
          [(Tok.mk 0 [] 0 [])])
        (Tok.mk 54 [Pre.mk 4 [' ']] 20 ['e', 'n', 'd'])))]
      [(Tok.mk 0 [] 0 []), (Tok.mk 0 [] 0 [])])
    (Tok.mk 2 [] 23 [])

/-- The scope/minify run for claim C2 (on the literal tree; the claim
theorem pins `c2file = c2tree` first). -/
def c2res : SPState × UsedMap × VarIdxMap := minifyIndexes c2tree 100

/-- The final parser state of the parse of `"="` (which bails on its
first statement), used by a witness below. -/
def c7wSt : PState :=
  ⟨⟨['='], -1, 1, 1, 0, [0], [⟨0, "unexpected symbol".toList⟩]⟩, 0, 21, ['='], [], none⟩

/-- Spec-side local resolution (C3): walk the scope chain innermost
first; within a scope the most recent matching declaration (the last
match in declaration order) wins; otherwise continue outward. -/
def resolveLocalSpec (st : SPState) : List Nat → List Char → Option Nat
  | [], _ => none
  | s :: rest, name =>
      match ((st.scopeAt s).varsIn.filter
          (fun vid => (st.varAt vid).name = name)).getLast? with
      | some vid => some vid
      | none => resolveLocalSpec st rest name

/-! ## Theorems -/

/-- C9: `NameList.IsValid` is claimed to accept every list of one or more
NAME items with exactly `|Items|-1` COMMA separators. The parser's own
output for `local a, b` is such a list, yet `IsValid` returns `false`:
the first validation loop of `NameList.IsValid` (src/go/ast/valid.go
lines 61-65) iterates over `l.Seps` — not `l.Items` — and demands that
every separator be a NAME, which contradicts the COMMA check that
follows, so every list with at least one separator is rejected (and the
items are never checked at all). -/
theorem c9_NameList_IsValid_rejects_valid_list :
    c9list = ⟨[⟨⟨NAME, [⟨SPACE, [' ']⟩], 6, ['a']⟩⟩, ⟨⟨NAME, [⟨SPACE, [' ']⟩], 9, ['b']⟩⟩],
              [⟨COMMA, [], 7, [',']⟩]⟩
    ∧ c9list.items.all (fun n => ist n.token NAME) = true
    ∧ c9list.seps.all (fun s => ist s COMMA) = true
    ∧ c9list.seps.length = c9list.items.length - 1
    ∧ c9list.items.length ≠ 0
    ∧ c9list.IsValid = false := by
  decide

set_option maxHeartbeats 4000000 in
/-- C6: the token walk (`WalkTokens`) is claimed to visit every token
stored in the tree exactly once, in lexical order. On the parse of
`"if x then end"`, the tree's `Walk` (the `tvok` form, which reaches
every stored token slot) visits the IF, `x`, THEN and END tokens, the
(invalid) block separator, and the EOF token — but `WalkTokens` never
visits the if-statement's END token: its `IfStmt` case (print.go lines
1123-1135) has no `VisitToken` call for `EndToken`. -/
theorem c6_WalkTokens_skips_IfStmt_end :
    wkFile c6file =
      [⟨IF, [], 0, ['i', 'f']⟩,
       ⟨NAME, [⟨SPACE, [' ']⟩], 3, ['x']⟩,
       ⟨THEN, [⟨SPACE, [' ']⟩], 5, "then".toList⟩,
       ⟨END, [⟨SPACE, [' ']⟩], 10, "end".toList⟩,
       Tok.zero,
       ⟨EOF, [], 13, []⟩]
    ∧ wtFile c6file =
      [⟨IF, [], 0, ['i', 'f']⟩,
       ⟨NAME, [⟨SPACE, [' ']⟩], 3, ['x']⟩,
       ⟨THEN, [⟨SPACE, [' ']⟩], 5, "then".toList⟩,
       Tok.zero,
       ⟨EOF, [], 13, []⟩]
    ∧ (wtFile c6file).all (fun t => t.type ≠ END) = true := by
  decide

set_option maxHeartbeats 4000000 in
/-- C1: round-trip identity is claimed for every syntactically valid
program. `"function a:m() end"` is valid Lua 5.1 and parses without
error (and through the entire input), but emission loses the method
suffix `:m`: `FuncNameList.WriteTo` (src/unnamed/part_003 lines 410-423)
writes `Items` and `Seps` and never writes `ColonToken` or `Method`, so
the tree prints as `"function a() end"`. -/
theorem c1_roundtrip_fails_on_method_function :
    parseErrOf (ParseFileE 64 "f".toList "function a:m() end".toList) = none
    ∧ parseBailOf (ParseFileE 64 "f".toList "function a:m() end".toList) = false
    ∧ c1file = c1tree
    ∧ c1tree.eofToken.type = EOF
    ∧ FileN.emit c1tree = "function a() end".toList
    ∧ FileN.emit c1tree ≠ "function a:m() end".toList :=
  ⟨by decide, by decide, rfl, by decide, by decide, by decide⟩

set_option maxHeartbeats 4000000 in
/-- C4: after `FixTokenOffsets(file, 0)` the line table is claimed to
hold, for each newline of the emitted bytes, the byte index immediately
after it. On the parse of `"-- a\nlocal x = 1\n"` (newlines at emitted
indices 4 and 16) the table after reflow is `[4, 16]` — the indices OF
the newline bytes (`offsetFixer.scanNewlines` passes `r.off + i`, the
newline's own offset, to `AddLine`) — where the claim requires
`[5, 17]`. The scanner itself had populated the same table as
`[0, 5, 17]`, using after-the-newline offsets, so reflow also disagrees
with the rest of the code base. -/
theorem c4_reflow_line_table_off_by_one :
    c4file = c4tree
    ∧ FileN.emit c4tree = "-- a\nlocal x = 1\n".toList
    ∧ nlPos (FileN.emit c4tree) 0 = [4, 16]
    ∧ fixTokenOffsetsLines c4tree 0 = [4, 16]
    ∧ (nlPos (FileN.emit c4tree) 0).map (· + 1) = [5, 17]
    ∧ fixTokenOffsetsLines c4tree 0 ≠ (nlPos (FileN.emit c4tree) 0).map (· + 1)
    ∧ c4tree.info.lines = [0, 5, 17] :=
  ⟨rfl, by decide, by decide, by decide, by decide, by decide, by decide⟩

set_option maxHeartbeats 4000000 in
/-- C7 (counterexample): the claim says the error returned by
`ParseFile` is the first error reported during the parse, and that the
partial tree (with the tokens consumed so far) is returned. Parsing
`x = "a⏎y =` reports the lexical error `unfinished string (EOL)` first
(at offset 4) and the structural error `unexpected symbol` second (at
offset 10); the returned error is the second, not the first — each
report overwrites `p.err` — and the returned tree is an empty `File`
carrying only the file information (the deferred recover in `ParseFile`
builds `&ast.File\x7bInfo: info\x7d`; the partial tree is discarded). -/
theorem c7_first_error_not_returned :
    parseErrsOf c7run =
      [⟨4, "unfinished string (EOL)".toList⟩, ⟨10, "unexpected symbol".toList⟩]
    ∧ parseErrOf c7run = some ⟨10, "unexpected symbol".toList⟩
    ∧ parseErrOf c7run ≠ some ⟨4, "unfinished string (EOL)".toList⟩
    ∧ parseBailOf c7run = true
    ∧ FileN.emit (parseFileOf c7run) = []
    ∧ (wkFile (parseFileOf c7run)).length = 1 := by
  decide

/-- C2: minifier renaming correctness is claimed: no local variable's new
name may equal a Lua keyword or the name of a global visible at its
declaration. On `"local x = 1 do a(x) end"` the local `x` (variable 0,
root scope) is assigned identifier index 0, i.e. the new name `a` — the
name of the global `a` (variable 1), which is referenced at position 6,
inside `x`'s visibility span `[2, 9]`. The cause: `Minify` descends
`fileScope.Root.Items`, and `descendItems` yields only scopes that occur
as items, never the root scope itself, so the keyword and global passes
never mark any index as used in the root scope and `findFreeIndex`
returns 0 for a root-scope local. -/
theorem c2_minify_gives_local_the_visible_globals_name :
    c2file = c2tree
    ∧ c2res.1.globals = [1]
    ∧ (c2res.1.varAt 1).vtype = GlobalVar
    ∧ (c2res.1.varAt 1).name = ['a']
    ∧ (c2res.1.varAt 0).vtype = LocalVar
    ∧ (c2res.1.varAt 0).name = ['x']
    ∧ (c2res.1.varAt 0).scopes.getD 0 0 = 0
    ∧ vget c2res.2.2 0 = some 0
    ∧ GenerateIdent 0 = ['a']
    ∧ (c2res.1.varAt 0).lifeStart ≤ (c2res.1.varAt 1).positions.getD 0 0
    ∧ (c2res.1.varAt 1).positions.getD 0 0 ≤ (c2res.1.varAt 0).scopeEnd
    ∧ uget c2res.2.1 (0, 0) = some (some 0) :=
  ⟨rfl, by decide, by decide, by decide, by decide, by decide, by decide, by decide,
   by unfold GenerateIdent
      rw [genLoop, genLoop]
      norm_num [maxIdentIndex, genRest, charsAt, chars, first, second],
   by decide, by decide, by decide⟩

/-- C7: the amended first-error claim. For any parse that completes in
fuel, the error `ParseFile` returns is the LAST error reported during
the parse (`p.err` is overwritten by every report, lexical or
structural), and when the parse ended in a bailout the returned node is
the zero `File` carrying only the file information — the tokens consumed
so far are discarded, not returned. -/
theorem c7_returned_error_is_last_and_bail_drops_tree
    (fuel : Nat) (fname src : List Char)
    (f : FileN) (e : Option ScanErr) (b : Bool) (st : PState)
    (h : ParseFileE fuel fname src = some (f, e, b, st)) :
    e = st.scan.errs.getLast?
    ∧ (b = true → f = ⟨⟨fname, st.scan.lines⟩, .mk [] [], Tok.zero⟩) := by
  unfold ParseFileE at h
  dsimp only [] at h
  split at h
  · exact absurd h (by simp)
  · simp only [Option.some.injEq, Prod.mk.injEq] at h
    obtain ⟨h1, h2, h3, h4⟩ := h
    subst h1; subst h2; subst h3; subst h4
    exact ⟨rfl, fun _ => rfl⟩
  · split at h
    · exact absurd h (by simp)
    · simp only [Option.some.injEq, Prod.mk.injEq] at h
      obtain ⟨h1, h2, h3, h4⟩ := h
      subst h1; subst h2; subst h3; subst h4
      exact ⟨rfl, fun _ => rfl⟩
    · simp only [Option.some.injEq, Prod.mk.injEq] at h
      obtain ⟨h1, h2, h3, h4⟩ := h
      subst h1; subst h2; subst h3; subst h4
      exact ⟨rfl, fun hb => nomatch hb⟩

/-- C7 witness: the amended theorem applied to the concrete parse of
`"="`. -/
theorem c7_returned_error_is_last_and_bail_drops_tree_witness :
    ParseFileE 16 "f".toList "=".toList =
      some (⟨⟨['f'], [0]⟩, .mk [] [], Tok.zero⟩,
        some ⟨0, "unexpected symbol".toList⟩, true, c7wSt)
    ∧ (some ⟨0, "unexpected symbol".toList⟩ = c7wSt.scan.errs.getLast?
       ∧ (true = true →
          (⟨⟨['f'], [0]⟩, .mk [] [], Tok.zero⟩ : FileN) =
            ⟨⟨"f".toList, c7wSt.scan.lines⟩, .mk [] [], Tok.zero⟩)) :=
  ⟨by rfl,
   c7_returned_error_is_last_and_bail_drops_tree 16 "f".toList "=".toList
     _ _ true c7wSt (by rfl)⟩

/-- Helper for C5: for every keyword-class type, the adjoin table entry
against a number-float is the content-dependent marker -2 (`cond`): every
keyword type is below `ekey_end`. -/
theorem keyword_adjoin_numberfloat_cond (lt : TokType) (h : lt.IsKeyword = true) :
    TokType.AdjoinSeparator lt NUMBERFLOAT = -2 := by
  have hb : 50 < lt ∧ lt < 77 := by
    simpa [TokType.IsKeyword, key_start, key_end] using h
  obtain ⟨h1, h2⟩ := hb
  interval_cases lt <;> decide

/-- Helper for C5: `getSep` for a keyword before a number-float — a space
unless the number's bytes begin with a dot. -/
theorem keyword_getSep_numberfloat (lt : TokType) (h : lt.IsKeyword = true)
    (rb : List Char) :
    getSep lt NUMBERFLOAT rb =
      if 0 < rb.length ∧ rb.headI = '.' then -1 else 32 := by
  have hb : 50 < lt ∧ lt < 77 := by
    simpa [TokType.IsKeyword, key_start, key_end] using h
  obtain ⟨hb1, hb2⟩ := hb
  have hcon : lt ≠ CONCAT := fun he => absurd (he ▸ hb1) (by decide)
  unfold getSep
  rw [keyword_adjoin_numberfloat_cond lt h]
  simp [hcon, h]

/-- Helper for C5: `getSep` for `..` before a number-float — a space
exactly when the number's bytes begin with a dot. -/
theorem concat_getSep_numberfloat (rb : List Char) :
    getSep CONCAT NUMBERFLOAT rb =
      if rb.take 1 = ['.'] then 32 else -1 := by
  unfold getSep
  cases rb with
  | nil => decide
  | cons c rest =>
    by_cases hc : c = '.' <;>
      simp [TokType.AdjoinSeparator, hc, CONCAT, NUMBERFLOAT, EOF, COMMENT, NAME,
        ASSIGN, DOT, LBRACK, LT_, GT_, EQ_, NEQ, MINUS, TokType.IsValid,
        TokType.IsNumber, valid_start, valid_end, num_start, num_end, key_start]

/-- C5: the content-dependent adjoin separators. A separator byte is
inserted (`0 ≤ getSep …`) between an adjacent `..` and number-float
exactly when the number's bytes begin with `.`, and between a keyword
(the whole keyword class: control keywords, `nil`, the booleans, `and`,
`or`, `not`) and a number-float exactly when the bytes do not begin with
`.` (`AdjoinSeparator`'s undefined `ekey_end` bound is modelled from the
spec as `key_end`, making the conditional entry cover every keyword). -/
theorem c5_adjoin_concat_and_keyword_before_float :
    (∀ rb : List Char, (0 ≤ getSep CONCAT NUMBERFLOAT rb ↔ rb.take 1 = ['.']))
    ∧ (∀ lt : TokType, lt.IsKeyword = true →
        ∀ rb : List Char, (0 ≤ getSep lt NUMBERFLOAT rb ↔ rb.take 1 ≠ ['.'])) := by
  constructor
  · intro rb
    rw [concat_getSep_numberfloat]
    by_cases hd : rb.take 1 = ['.'] <;> simp [hd]
  · intro lt h rb
    rw [keyword_getSep_numberfloat lt h]
    cases rb with
    | nil => simp
    | cons c rest =>
      by_cases hc : c = '.' <;> simp [hc]

/-- C5 witness: the theorem applied at `..`/`do` against the number
bytes `.5` and `5`. -/
theorem c5_adjoin_concat_and_keyword_before_float_witness :
    (0 ≤ getSep CONCAT NUMBERFLOAT ['.', '5'] ↔ ['.', '5'].take 1 = ['.'])
    ∧ (DO : TokType).IsKeyword = true
    ∧ (0 ≤ getSep DO NUMBERFLOAT ['5'] ↔ ['5'].take 1 ≠ ['.']) :=
  ⟨c5_adjoin_concat_and_keyword_before_float.1 ['.', '5'], by decide,
   c5_adjoin_concat_and_keyword_before_float.2 DO (by decide) ['5']⟩

/-- Helper: `find?` finds the head of the filtered list. -/
theorem find_eq_head_filter (p : α → Bool) (m : List α) :
    m.find? p = (m.filter p).head? := by
  induction m with
  | nil => rfl
  | cons a m ih =>
    by_cases hp : p a = true
    · rw [List.find?_cons_of_pos m hp, List.filter_cons_of_pos hp, List.head?_cons]
    · rw [List.find?_cons_of_neg m hp, List.filter_cons_of_neg hp, ih]

/-- Helper: searching a reversed list finds the LAST match of the
original list — `getLocalVar`'s reverse iteration picks the most recent
declaration. -/
theorem reverse_find_eq_filter_getLast (p : α → Bool) (l : List α) :
    l.reverse.find? p = (l.filter p).getLast? := by
  rw [find_eq_head_filter, List.filter_reverse, List.head?_reverse]

/-- Helper for C3: `getLocalVar` resolves along the parent chain,
innermost scope first, most recent declaration first. -/
theorem getLocalVar_eq_resolveLocalSpec (st : SPState) (name : List Char) :
    ∀ (fuel : Nat) (scope : Option Nat),
      st.getLocalVar fuel scope name =
        resolveLocalSpec st (scopeChain st fuel scope) name := by
  intro fuel
  induction fuel with
  | zero => intro scope; cases scope <;> rfl
  | succ fuel ih =>
    intro scope
    cases scope with
    | none => rfl
    | some s =>
      show (match ((st.scopeAt s).varsIn.reverse).find?
          (fun vid => (st.varAt vid).name = name) with
        | some vid => some vid
        | none => st.getLocalVar fuel (st.scopeAt s).parent name) = _
      rw [reverse_find_eq_filter_getLast]
      show _ = (match ((st.scopeAt s).varsIn.filter
          (fun vid => (st.varAt vid).name = name)).getLast? with
        | some vid => some vid
        | none => resolveLocalSpec st (scopeChain st fuel (st.scopeAt s).parent) name)
      cases ((st.scopeAt s).varsIn.filter
          (fun vid => (st.varAt vid).name = name)).getLast? with
      | some vid => rfl
      | none => simp only []; exact ih (st.scopeAt s).parent

/-- Helper for C3: a resolved local is referenced, not interned as a
global. -/
theorem referenceVariable_local (st : SPState) (tok : Tok) (vid : Nat)
    (h : st.getLocalVar (st.scopes.length + 1) st.currentScope tok.bytes = some vid) :
    st.referenceVariable tok = st.addVariableName vid tok := by
  unfold SPState.referenceVariable
  rw [h]

/-- Helper for C3: with no local match the reference goes to the global
table. -/
theorem referenceVariable_global (st : SPState) (tok : Tok)
    (h : st.getLocalVar (st.scopes.length + 1) st.currentScope tok.bytes = none) :
    st.referenceVariable tok = st.addGlobalVar tok := by
  unfold SPState.referenceVariable
  rw [h]

/-- Helper for C3: an existing global of the same name is reused. -/
theorem addGlobalVar_reuses (st : SPState) (tok : Tok) (g : Nat)
    (h : st.globals.find? (fun g => (st.varAt g).name = tok.bytes) = some g) :
    st.addGlobalVar tok = st.addVariableName g tok := by
  unfold SPState.addGlobalVar
  rw [h]

/-- Helper for C3: a first use of a global name creates the global —
one new variable of that name and type, appended to the global list. -/
theorem addGlobalVar_creates (st : SPState) (tok : Tok)
    (h : st.globals.find? (fun g => (st.varAt g).name = tok.bytes) = none) :
    (st.addGlobalVar tok).globals = st.globals ++ [st.vars.length]
    ∧ (st.addGlobalVar tok).vars.length = st.vars.length + 1
    ∧ ((st.addGlobalVar tok).varAt st.vars.length).name = tok.bytes
    ∧ ((st.addGlobalVar tok).varAt st.vars.length).vtype = GlobalVar := by
  unfold SPState.addGlobalVar
  rw [h]
  simp only [SPState.newVariable, SPState.addVariableName, SPState.mark,
    SPState.setVar, SPState.varAt, SPState.setScope, SPState.scopeAt]
  refine ⟨?_, ?_, ?_, ?_⟩ <;>
    simp [List.getD, List.getElem?_set, List.getElem?_append]

/-- Helper for C3: referencing a variable records the token in the
variable map (when the token offset is new, as every token of a parsed
tree is visited once). -/
theorem addVariableName_maps_token (st : SPState) (vid : Nat) (tok : Tok)
    (h : st.varOfTok tok.offset = none) :
    (st.addVariableName vid tok).varOfTok tok.offset = some vid := by
  unfold SPState.varOfTok at h ⊢
  have h2 : List.find? (fun p => p.1 = tok.offset) st.varMap = none := by
    cases hf : List.find? (fun p => p.1 = tok.offset) st.varMap with
    | none => rfl
    | some x => rw [hf] at h; exact absurd h (by simp)
  simp only [SPState.addVariableName, SPState.mark, SPState.setVar, SPState.setScope]
  rw [List.find?_append, h2]
  simp

/-- C3: scope reference resolution. (1) `getLocalVar` walks the scope
chain outward from the current scope and, inside each scope, the most
recent byte-equal declaration wins (the last match in declaration
order) — shadowing as claimed. (2,3) `referenceVariable` takes the
resolved local when one exists, and falls to the global table otherwise.
(4) An existing global with byte-equal name is reused (the reference is
appended to it, nothing is created); (5) a first use creates exactly one
new variable with that name and type Global. (6) In each case the use
token is recorded in the variable map as mapping to that variable. -/
theorem c3_scope_reference_resolution :
    (∀ (st : SPState) (name : List Char) (fuel : Nat) (scope : Option Nat),
      st.getLocalVar fuel scope name =
        resolveLocalSpec st (scopeChain st fuel scope) name)
    ∧ (∀ (st : SPState) (tok : Tok) (vid : Nat),
        st.getLocalVar (st.scopes.length + 1) st.currentScope tok.bytes = some vid →
        st.referenceVariable tok = st.addVariableName vid tok)
    ∧ (∀ (st : SPState) (tok : Tok),
        st.getLocalVar (st.scopes.length + 1) st.currentScope tok.bytes = none →
        st.referenceVariable tok = st.addGlobalVar tok)
    ∧ (∀ (st : SPState) (tok : Tok) (g : Nat),
        st.globals.find? (fun g => (st.varAt g).name = tok.bytes) = some g →
        st.addGlobalVar tok = st.addVariableName g tok)
    ∧ (∀ (st : SPState) (tok : Tok),
        st.globals.find? (fun g => (st.varAt g).name = tok.bytes) = none →
        (st.addGlobalVar tok).globals = st.globals ++ [st.vars.length]
        ∧ (st.addGlobalVar tok).vars.length = st.vars.length + 1
        ∧ ((st.addGlobalVar tok).varAt st.vars.length).name = tok.bytes
        ∧ ((st.addGlobalVar tok).varAt st.vars.length).vtype = GlobalVar)
    ∧ (∀ (st : SPState) (vid : Nat) (tok : Tok),
        st.varOfTok tok.offset = none →
        (st.addVariableName vid tok).varOfTok tok.offset = some vid) :=
  ⟨fun st name fuel scope => getLocalVar_eq_resolveLocalSpec st name fuel scope,
   fun st tok vid h => referenceVariable_local st tok vid h,
   fun st tok h => referenceVariable_global st tok h,
   fun st tok g h => addGlobalVar_reuses st tok g h,
   fun st tok h => addGlobalVar_creates st tok h,
   fun st vid tok h => addVariableName_maps_token st vid tok h⟩

/-! ### C8/C10: the identifier enumeration (`GenerateIdent`/`IdentIndex`).
`first_eq`/`second_eq` pin the alphabet constants; `genLoop_run` /
`genLoop_init` characterise the length loop; `genRest_digits` the digit
loop; `identLoop_run` the accumulation loop of `IdentIndex`. -/

theorem first_eq : first = 53 := rfl
theorem second_eq : second = 63 := rfl

theorem tmod_coe (a b : Nat) : ((a : Int)).tmod (b : Int) = ((a % b : Nat) : Int) := by
  rw [Int.tmod_eq_emod (by positivity) (by positivity)]
  simp

theorem tdiv_coe (a b : Nat) : ((a : Int)).tdiv (b : Int) = ((a / b : Nat) : Int) := by
  rw [Int.tdiv_eq_ediv (by positivity) (by positivity)]
  simp [Int.ofNat_tdiv]

theorem identPrefixSum_succ (m : Nat) :
    identPrefixSum (m + 1) = identPrefixSum m + 53 * 63 ^ m := rfl

theorem S_mul_identity (m : Nat) : 53 * 63 ^ m = 62 * identPrefixSum m + 53 := by
  induction m with
  | zero => decide
  | succ m ih =>
    have h1 : (63:Nat) ^ (m+1) = 63 ^ m * 63 := pow_succ 63 m
    have h2 := identPrefixSum_succ m
    omega

theorem S_tdiv (m : Nat) : ((53 : Int) * 63 ^ m).tdiv 62 = (identPrefixSum m : Int) := by
  have h : (53 : Int) * 63 ^ m = ((53 * 63 ^ m : Nat) : Int) := by push_cast; ring
  have h62 : (62 : Int) = ((62 : Nat) : Int) := by norm_num
  rw [h, h62, tdiv_coe]
  have h2 : (53 * 63 ^ m) / 62 = identPrefixSum m := by
    have := S_mul_identity m
    omega
  rw [h2]

theorem identLenSpec_pos (n : Nat) : 1 ≤ identLenSpec n := Nat.le_add_left 1 _

theorem identLenSpec_spec (n : Nat) : n < identPrefixSum (identLenSpec n) := by
  unfold identLenSpec
  exact Nat.find_spec (p := fun L => identPrefixSum (L + 1) > n) _

theorem identLenSpec_min (n : Nat) : ∀ m, m < identLenSpec n → identPrefixSum m ≤ n := by
  intro m hm
  cases m with
  | zero => exact Nat.zero_le n
  | succ m =>
    by_contra hc
    push_neg at hc
    have h2 : identLenSpec n ≤ m + 1 := by
      unfold identLenSpec
      exact Nat.succ_le_succ (Nat.find_le hc)
    omega

theorem charIndex_chars : ∀ d : Nat, d < 63 → charIndex (chars.getD d '?') = (d : Int) := by
  decide

theorem genLoop_run (n : Nat) :
    ∀ d m, m + 1 + d = identLenSpec n →
      genLoop (n : Int) (identPrefixSum (m + 1) : Int) ((53 : Int) * 63 ^ m)
          ((n : Int) - identPrefixSum m) (m + 1)
        = ((n : Int) - identPrefixSum (identLenSpec n - 1), identLenSpec n) := by
  intro d
  induction d with
  | zero =>
    intro m hm
    rw [genLoop]
    rw [dif_neg]
    · rw [show identLenSpec n - 1 = m by omega, show identLenSpec n = m + 1 by omega]
    · have hspec := identLenSpec_spec n
      have hL : m + 1 = identLenSpec n := by omega
      rw [hL]
      simp only [not_le]
      exact_mod_cast hspec
  | succ d ih =>
    intro m hm
    rw [genLoop]
    rw [dif_pos]
    · dsimp only []
      have harg1 : (identPrefixSum (m + 1) : Int)
            + ((first : Nat) : Int) * ((second : Nat) : Int) ^ (m + 1)
          = (identPrefixSum (m + 1 + 1) : Int) := by
        rw [first_eq, second_eq, identPrefixSum_succ (m + 1)]
        push_cast
        ring
      have harg2 : (n : Int) - (identPrefixSum m : Int) - (53 : Int) * (63 : Int) ^ m
          = (n : Int) - (identPrefixSum (m + 1) : Int) := by
        rw [identPrefixSum_succ m]
        push_cast
        ring
      have hfs : ((first : Nat) : Int) * ((second : Nat) : Int) ^ (m + 1)
          = (53 : Int) * (63 : Int) ^ (m + 1) := by
        rw [first_eq, second_eq]; push_cast; ring
      rw [harg1, harg2, hfs]
      exact ih (m + 1) (by omega)
    · have hle : identPrefixSum (m + 1) ≤ n := identLenSpec_min n (m + 1) (by omega)
      exact_mod_cast hle

theorem genLoop_init (n : Nat) :
    genLoop (n : Int) 0 0 (n : Int) 0
      = ((n : Int) - identPrefixSum (identLenSpec n - 1), identLenSpec n) := by
  rw [genLoop]
  rw [dif_pos (by positivity)]
  dsimp only []
  have h1 : (0 : Int) + ((first : Nat) : Int) * ((second : Nat) : Int) ^ (0 : Nat)
      = (identPrefixSum 1 : Int) := by decide
  have h2 : (n : Int) - 0 = (n : Int) - (identPrefixSum 0 : Int) := by
    show _ = (n : Int) - ((0 : Nat) : Int)
    norm_num
  have h3 : ((first : Nat) : Int) * ((second : Nat) : Int) ^ (0 : Nat)
      = (53 : Int) * (63 : Int) ^ (0 : Nat) := by decide
  rw [h1, h2, h3]
  exact genLoop_run n (identLenSpec n - 1) 0 (by have := identLenSpec_pos n; omega)

theorem genRest_digits (k : Nat) :
    ∀ q : Nat, genRest (q : Int) k
      = (List.range k).map (fun j => chars.getD (q / 63 ^ j % 63) '?') := by
  induction k with
  | zero => intro q; rfl
  | succ k ih =>
    intro q
    show charsAt ((q : Int).tmod ((second : Nat) : Int))
        :: genRest (((q : Int) - (q : Int).tmod ((second : Nat) : Int)).tdiv ((second : Nat) : Int)) k = _
    rw [second_eq, tmod_coe]
    have hsub : (q : Int) - ((q % 63 : Nat) : Int) = (((q - q % 63) : Nat) : Int) := by
      have : q % 63 ≤ q := Nat.mod_le q 63
      push_cast [this]
      ring
    rw [hsub, tdiv_coe]
    have hdiv : (q - q % 63) / 63 = q / 63 := by
      conv_lhs => rw [show q - q % 63 = 63 * (q / 63) by omega]
      exact Nat.mul_div_cancel_left _ (by norm_num)
    rw [hdiv]
    have hcharsAt : charsAt ((q % 63 : Nat) : Int) = chars.getD (q % 63) '?' := by
      unfold charsAt
      rw [Int.toNat_ofNat]
    rw [hcharsAt, ih (q / 63)]
    rw [List.range_succ_eq_map, List.map_cons, List.map_map]
    congr 1
    · congr 1
      simp
    · apply List.map_congr_left
      intro j _
      simp only [Function.comp]
      congr 2
      rw [Nat.div_div_eq_div_mul]
      congr 1
      rw [Nat.pow_succ]
      ring

theorem generateIdent_spec (n : Nat) (h : n ≤ 2 ^ 31 - 1) :
    GenerateIdent (n : Int) = genIdentSpecAm n := by
  have h1 : ¬((n : Int) < 0) := by omega
  have h2 : ¬((n : Int) > maxIdentIndex) := by
    unfold maxIdentIndex
    push_neg
    have h3 : (n : Int) ≤ ((2 ^ 31 - 1 : Nat) : Int) := by exact_mod_cast h
    have h4 : ((2 ^ 31 - 1 : Nat) : Int) = (2 : Int) ^ 31 - 1 := by norm_num
    omega
  unfold GenerateIdent
  rw [if_neg (by simp [h1, h2])]
  rw [genLoop_init n]
  dsimp only []
  have hSle : identPrefixSum (identLenSpec n - 1) ≤ n := by
    have := identLenSpec_pos n
    exact identLenSpec_min n (identLenSpec n - 1) (by omega)
  have hr : (n : Int) - (identPrefixSum (identLenSpec n - 1) : Int)
      = (((n - identPrefixSum (identLenSpec n - 1)) : Nat) : Int) := by
    push_cast [hSle]
    ring
  set rn : Nat := n - identPrefixSum (identLenSpec n - 1) with hrn
  rw [hr]
  rw [first_eq]
  rw [tmod_coe]
  have hsub : (rn : Int) - ((rn % 53 : Nat) : Int) = (((rn - rn % 53) : Nat) : Int) := by
    have : rn % 53 ≤ rn := Nat.mod_le rn 53
    push_cast [this]
    ring
  rw [hsub, tdiv_coe]
  have hdiv : (rn - rn % 53) / 53 = rn / 53 := by
    conv_lhs => rw [show rn - rn % 53 = 53 * (rn / 53) by omega]
    exact Nat.mul_div_cancel_left _ (by norm_num)
  rw [hdiv]
  have hcharsAt : charsAt ((rn % 53 : Nat) : Int) = chars.getD (rn % 53) '?' := by
    unfold charsAt
    rw [Int.toNat_ofNat]
  rw [hcharsAt, genRest_digits _ (rn / 53)]
  unfold genIdentSpecAm genIdentFormula
  rw [first_eq, second_eq]

theorem identLoop_run (k : Nat) :
    ∀ (i q : Nat) (x n : Int), 1 ≤ i → q < 63 ^ (k + 1) →
      identLoop ((List.range (k + 1)).map fun j => chars.getD (q / 63 ^ j % 63) '?') i x n
        = ((identPrefixSum (i + k) : Int),
           n + (53 : Int) * (63 : Int) ^ (i - 1) * (q : Int)) := by
  induction k with
  | zero =>
    intro i q x n hi hq
    have hqq : q % 63 = q := Nat.mod_eq_of_lt (by simpa using hq)
    simp only [List.range_succ_eq_map, List.range_zero, List.map_nil, List.map_cons,
      pow_zero, Nat.div_one]
    simp only [identLoop]
    rw [hqq]
    have hchar : charIndex (chars.getD q '?') = (q : Int) :=
      charIndex_chars q (by simpa using hq)
    rw [hchar]
    have hx2 : (((second : Nat) : Int) * (((first : Nat) : Int) * ((second : Nat) : Int) ^ (i - 1))).tdiv
        (((second : Nat) : Int) - 1) = (identPrefixSum i : Int) := by
      rw [first_eq, second_eq]
      push_cast
      have hpow : ((63 : Int)) * ((53 : Int) * (63 : Int) ^ (i - 1)) = (53 : Int) * 63 ^ i := by
        conv_rhs => rw [show i = (i - 1) + 1 by omega]
        rw [pow_succ]
        ring
      rw [hpow]
      exact S_tdiv i
    rw [hx2, Prod.mk.injEq]
    refine ⟨congrArg (fun t => ((identPrefixSum t : Nat) : Int)) (by omega), ?_⟩
    rw [first_eq, second_eq]
    push_cast
    ring
  | succ k ih =>
    intro i q x n hi hq
    rw [List.range_succ_eq_map, List.map_cons, List.map_map]
    have hmap : List.map ((fun j => chars.getD (q / 63 ^ j % 63) '?') ∘ Nat.succ)
          (List.range (k + 1))
        = List.map (fun j => chars.getD ((q / 63) / 63 ^ j % 63) '?')
          (List.range (k + 1)) := by
      apply List.map_congr_left
      intro j _
      simp only [Function.comp]
      congr 2
      rw [Nat.div_div_eq_div_mul]
      congr 1
      rw [Nat.pow_succ]
      ring
    rw [hmap]
    simp only [identLoop, pow_zero, Nat.div_one]
    have hdivlt : q / 63 < 63 ^ (k + 1) := by
      have h2 : (63 : Nat) ^ (k + 2) = 63 ^ (k + 1) * 63 := by rw [Nat.pow_succ]
      rw [h2] at hq
      exact Nat.div_lt_of_lt_mul (by omega)
    rw [ih (i + 1) (q / 63) _ _ (by omega) hdivlt]
    have hchar : charIndex (chars.getD (q % 63) '?') = ((q % 63 : Nat) : Int) :=
      charIndex_chars (q % 63) (Nat.mod_lt q (by norm_num))
    rw [hchar, Prod.mk.injEq]
    refine ⟨congrArg (fun t => ((identPrefixSum t : Nat) : Int)) (by omega), ?_⟩
    rw [first_eq, second_eq]
    have hq63 : (q : Int) = ((q % 63 : Nat) : Int) + 63 * ((q / 63 : Nat) : Int) := by
      push_cast
      omega
    have hpow : (63 : Int) ^ i = (63 : Int) ^ (i - 1) * 63 := by
      conv_lhs => rw [show i = (i - 1) + 1 by omega]
      rw [pow_succ]
    have hi1 : i + 1 - 1 = i := by omega
    rw [hi1, hq63, hpow]
    push_cast
    ring

theorem identLenSpec_le_six (n : Nat) (h : n ≤ 2 ^ 31 - 1) : identLenSpec n ≤ 6 := by
  by_contra hc
  push_neg at hc
  have h6 : identPrefixSum 6 ≤ n := identLenSpec_min n 6 hc
  have : (2147483647 : Nat) < identPrefixSum 6 := by decide
  omega

theorem identIndex_formula (L r n : Nat) (hL1 : 1 ≤ L) (hL6 : L ≤ 6)
    (hrlt : r < 53 * 63 ^ (L - 1)) (hn : r + identPrefixSum (L - 1) = n)
    (hmax : n ≤ 2 ^ 31 - 1) :
    IdentIndex (chars.getD (r % 53) '?'
        :: (List.range (L - 1)).map (fun k => chars.getD (r / 53 / 63 ^ k % 63) '?'))
      = (n : Int) := by
  have hr53 : r % 53 < 53 := Nat.mod_lt r (by norm_num)
  have hchar0 : charIndex (chars.getD (r % 53) '?') = ((r % 53 : Nat) : Int) :=
    charIndex_chars (r % 53) (by omega)
  unfold IdentIndex
  have hlen : (chars.getD (r % 53) '?'
      :: (List.range (L - 1)).map (fun k => chars.getD (r / 53 / 63 ^ k % 63) '?')).length
      = L := by
    simp only [List.length_cons, List.length_map, List.length_range]
    omega
  simp only [hlen]
  rw [if_neg (by simp [maxIdentLength]; omega)]
  simp only [List.headI]
  rw [if_neg (by
    simp only [Bool.or_eq_true, decide_eq_true_eq, not_or, hchar0, first_eq]
    push_cast
    constructor <;> omega)]
  by_cases hL : L = 1
  · rw [if_pos hL]
    subst hL
    norm_num at hrlt
    rw [hchar0]
    have h0 : identPrefixSum (1 - 1) = 0 := rfl
    exact congrArg (fun t : Nat => (t : Int)) (by omega)
  · rw [if_neg hL]
    try dsimp only []
    obtain ⟨M, rfl⟩ : ∃ M, L = M + 2 := ⟨L - 2, by omega⟩
    simp only [Nat.add_sub_cancel, show M + 2 - 1 = M + 1 from by omega] at *
    simp only [List.range_succ_eq_map, List.map_cons]
    simp only [pow_zero, mul_one, Nat.div_one, List.getD_cons_succ, List.getD_cons_zero,
      List.drop_succ_cons, List.drop_zero, List.map_map]
    set q : Nat := r / 53 with hq
    have hqlt : q < 63 ^ (M + 1) := by
      rw [hq]
      apply Nat.div_lt_of_lt_mul
      omega
    have hmap : List.map ((fun k => chars.getD (r / 53 / 63 ^ k % 63) '?') ∘ Nat.succ)
          (List.range M)
        = List.map (fun j => chars.getD ((q / 63) / 63 ^ j % 63) '?')
          (List.range M) := by
      apply List.map_congr_left
      intro j _
      simp only [Function.comp]
      congr 2
      rw [hq, Nat.div_div_eq_div_mul, Nat.div_div_eq_div_mul, Nat.div_div_eq_div_mul]
      congr 1
      rw [Nat.pow_succ]
      ring
    simp only [hmap]
    have hchar1 : charIndex (chars.getD (q % 63) '?') = ((q % 63 : Nat) : Int) :=
      charIndex_chars (q % 63) (Nat.mod_lt q (by norm_num))
    simp only [hchar0, hchar1]
    have hx1 : (((first : Nat) : Int) * ((first : Nat) : Int)).tdiv
        (((first : Nat) : Int) - 1) - 1 = ((identPrefixSum 1 : Nat) : Int) := by decide
    simp only [hx1]
    have hloop : identLoop
          (List.map (fun j => chars.getD ((q / 63) / 63 ^ j % 63) '?') (List.range M))
          2 ((identPrefixSum 1 : Nat) : Int)
          (((r % 53 : Nat) : Int) + ((first : Nat) : Int) * ((q % 63 : Nat) : Int))
        = (((identPrefixSum (M + 1) : Nat) : Int),
           (((r % 53 : Nat) : Int) + ((first : Nat) : Int) * ((q % 63 : Nat) : Int))
             + (53 : Int) * (63 : Int) * ((q / 63 : Nat) : Int)) := by
      cases M with
      | zero =>
        simp only [List.range_zero, List.map_nil]
        simp only [identLoop]
        have hq63 : q < 63 := by simpa using hqlt
        have hdz : q / 63 = 0 := Nat.div_eq_of_lt hq63
        rw [hdz]
        norm_num
      | succ M =>
        have hqd : q / 63 < 63 ^ (M + 1) := by
          apply Nat.div_lt_of_lt_mul
          have h2 : (63 : Nat) ^ (M + 1) * 63 = 63 ^ (M + 1 + 1) := by
            rw [← Nat.pow_succ]
          omega
        rw [identLoop_run M 2 (q / 63) _ _ (by omega) hqd]
        rw [Prod.mk.injEq]
        constructor
        · exact congrArg (fun t => ((identPrefixSum t : Nat) : Int)) (by omega)
        · norm_num
    simp only [hloop]
    have hn2 : (((r % 53 : Nat) : Int) + ((first : Nat) : Int) * ((q % 63 : Nat) : Int))
          + (53 : Int) * (63 : Int) * ((q / 63 : Nat) : Int)
          + ((identPrefixSum (M + 1) : Nat) : Int) = (n : Int) := by
      rw [first_eq, hq]
      push_cast
      omega
    simp only [hn2]
    rw [if_neg]
    simp only [Bool.or_eq_true, decide_eq_true_eq, not_or]
    have hmaxI : maxIdentIndex = (2147483647 : Int) := by decide
    rw [hmaxI]
    have h3 : (n : Int) ≤ ((2 ^ 31 - 1 : Nat) : Int) := by exact_mod_cast hmax
    have h31 : ((2 ^ 31 - 1 : Nat) : Int) = (2147483647 : Int) := by norm_num
    constructor
    · omega
    · omega

theorem identIndex_generateIdent (n : Nat) (h : n ≤ 2 ^ 31 - 1) :
    IdentIndex (GenerateIdent (n : Int)) = (n : Int) := by
  rw [generateIdent_spec n h]
  unfold genIdentSpecAm genIdentFormula
  rw [first_eq, second_eq]
  have hL1 : 1 ≤ identLenSpec n := identLenSpec_pos n
  have hSle : identPrefixSum (identLenSpec n - 1) ≤ n :=
    identLenSpec_min n (identLenSpec n - 1) (by omega)
  have hSgt : n < identPrefixSum (identLenSpec n) := identLenSpec_spec n
  have hSsucc : identPrefixSum (identLenSpec n)
      = identPrefixSum (identLenSpec n - 1) + 53 * 63 ^ (identLenSpec n - 1) := by
    conv_lhs => rw [show identLenSpec n = (identLenSpec n - 1) + 1 by omega]
    exact identPrefixSum_succ _
  exact identIndex_formula (identLenSpec n) (n - identPrefixSum (identLenSpec n - 1)) n
    hL1 (identLenSpec_le_six n h) (by omega) (by omega) h

theorem generateIdent_injective (m n : Nat) (hm : m ≤ 2 ^ 31 - 1) (hn : n ≤ 2 ^ 31 - 1)
    (he : GenerateIdent (m : Int) = GenerateIdent (n : Int)) : m = n := by
  have h1 := identIndex_generateIdent m hm
  have h2 := identIndex_generateIdent n hn
  rw [he] at h1
  rw [h2] at h1
  exact (by exact_mod_cast h1 : n = m).symm

theorem identLenSpec_52 : identLenSpec 52 = 1 := by
  unfold identLenSpec
  congr 1

theorem identLenSpec52_52 : identLenSpec52 52 = 2 := by
  unfold identLenSpec52
  congr 1

/-- C8 counterexample: at index 52 the claimed 52/62-based formula gives
the two-character identifier `aa` (52 exhausts the claimed one-character
range `52·62^0`), but `GenerateIdent` returns the one-character
identifier `_`: the code draws the first character from 53 choices
(`first = second - 10 = 53`), not 52. -/
theorem c8_spec52_formula_fails_at_52 :
    GenerateIdent 52 = ['_']
    ∧ genIdentSpec52 52 = ['a', 'a']
    ∧ GenerateIdent 52 ≠ genIdentSpec52 52 := by
  have h52 : ((52 : Nat) : Int) = (52 : Int) := by norm_num
  have h1 : GenerateIdent 52 = ['_'] := by
    rw [← h52, generateIdent_spec 52 (by norm_num)]
    unfold genIdentSpecAm
    rw [identLenSpec_52]
    decide
  have h2 : genIdentSpec52 52 = ['a', 'a'] := by
    unfold genIdentSpec52
    rw [identLenSpec52_52]
    decide
  exact ⟨h1, h2, by rw [h1, h2]; decide⟩

/-- C8 (amended): `GenerateIdent` follows the claimed formula with the
code's actual constants — 53 first-character choices (letters plus
underscore) and base 63 — not the claim's 52 and 62: the length is the
smallest `L ≥ 1` with `53·63^0 + … + 53·63^(L-1) > index`, the first
character is selected by `residual % 53`, the following characters are
the successive base-63 digits of `residual / 53`; and the map is
injective on `[0, 2^31-1]` (a bijection onto its image). -/
theorem c8_generate_ident_follows_53_63_formula :
    (∀ n : Nat, n ≤ 2 ^ 31 - 1 → GenerateIdent (n : Int) = genIdentSpecAm n)
    ∧ (∀ m n : Nat, m ≤ 2 ^ 31 - 1 → n ≤ 2 ^ 31 - 1 →
        GenerateIdent (m : Int) = GenerateIdent (n : Int) → m = n) :=
  ⟨generateIdent_spec, generateIdent_injective⟩

/-- C10: `IdentIndex` is a left inverse of `GenerateIdent` on the whole
representable range `[0, 2^31-1]`. -/
theorem c10_ident_index_inverts_generate_ident (n : Nat) (h : n ≤ 2 ^ 31 - 1) :
    IdentIndex (GenerateIdent (n : Int)) = (n : Int) :=
  identIndex_generateIdent n h

/-- C10 witness: the round trip at the concrete index 1000. -/
theorem c10_ident_index_inverts_generate_ident_witness :
    1000 ≤ 2 ^ 31 - 1
    ∧ IdentIndex (GenerateIdent ((1000 : Nat) : Int)) = ((1000 : Nat) : Int) :=
  ⟨by norm_num, c10_ident_index_inverts_generate_ident 1000 (by norm_num)⟩
